import Mathlib

/-!
# Self-driving pilot: search tree, replay cost oracle and workload forecast

A shallow embedding of

* `src/include/self_driving/pilot/mcst/tree_node.h` (`TreeNode`),
* `src/self_driving/pilot_util.cpp` (`PilotUtil`),
* `src/include/self_driving/forecast/workload_forecast.h` (`WorkloadForecast`),
* `src/catalog/postgres/pg_proc_impl.cpp` (`PgProcImpl`),
* `test/self_driving/generate_change_knob_action_test.cpp` (the change-knob
  action generator as its test describes it),

together with theorems about their behaviour.

Machine integers are natural numbers with explicit reductions modulo `2^32`
and `2^64`.  A C++ `int` is kept as its 32-bit two's-complement bit pattern.
-/

namespace noisepage.selfdriving

/-! ## Machine arithmetic -/

/-- Number of values of a 32-bit word. -/
def pow32 : Nat := 4294967296

/-- Number of values of a 64-bit word. -/
def pow64 : Nat := 18446744073709551616

/-- Conversion of a C++ `int`, given by its 32-bit two's-complement pattern, to
`uint64_t`: the sign bit is extended, so a negative `int` value `v` becomes
`2^64 + v`. -/
def intToUInt64 (bits : Nat) : Nat :=
  if bits < 2147483648 then bits else (pow64 - pow32) + bits

/-- Conversion of a `uint64_t` to a C++ `int`: the low 32 bits are kept. -/
def uint64ToInt (x : Nat) : Nat := x % pow32

/-- The statement `child_sum += cost` for `int child_sum` and `uint64_t cost`:
the sum is formed in `uint64_t` (the `int` operand is converted) and the result
is converted back to `int`. -/
def intAddAssign (child_sum cost : Nat) : Nat :=
  uint64ToInt ((intToUInt64 child_sum + cost) % pow64)

/-! ## The search tree node -/

/-- The class `TreeNode`.  `children_` owns the child nodes; the non-owning
`parent_` pointer is represented by the position of a node inside its parent's
`children_`.  `current_action_` is an `action_id_t`; the root carries
`NULL_ACTION = INT32_MAX`. -/
inductive TreeNode where
  | mk (is_leaf_ : Bool) (depth_ : Nat) (number_of_visits_ : Nat)
      (children_ : List TreeNode) (current_action_ : Nat) (cost_ : Nat)

namespace TreeNode

/-- Field `is_leaf_`, read by `IsLeaf()`. -/
def IsLeaf : TreeNode → Bool
  | mk l _ _ _ _ _ => l

/-- Field `depth_`, read by `GetDepth()`. -/
def GetDepth : TreeNode → Nat
  | mk _ d _ _ _ _ => d

/-- Field `number_of_visits_`. -/
def number_of_visits_ : TreeNode → Nat
  | mk _ _ v _ _ _ => v

/-- Field `children_`. -/
def children_ : TreeNode → List TreeNode
  | mk _ _ _ cs _ _ => cs

/-- Field `current_action_`, read by `GetCurrentAction()`. -/
def GetCurrentAction : TreeNode → Nat
  | mk _ _ _ _ a _ => a

/-- Field `cost_`, read by `GetCost()`. -/
def GetCost : TreeNode → Nat
  | mk _ _ _ _ _ c => c

/-- The method `GetNumberOfChildren()`: `children_.size()`. -/
def GetNumberOfChildren (n : TreeNode) : Nat := n.children_.length

/-- A fault that ends a computation without a value: the trap of a division
instruction, or a path that leaves the tree. -/
inductive Fault where
  | divideByZero
  | noSuchChild
  deriving DecidableEq

/-- What the compiled program does when a `uint64_t` division is reached with
the divisor 0.  C++ gives that division no meaning, so the outcome is the one of
the division instruction of the target, given here for the dividend: `none`
when the instruction traps (the x86-64 `div` raises a divide error and the
process ends with `SIGFPE`), `some q` when it leaves the quotient `q` (the
AArch64 `udiv` leaves 0). -/
abbrev ZeroDivision := Nat → Option Nat

/-- A target whose division by zero traps. -/
def trapping : ZeroDivision := fun _ => none

/-- A target whose division by zero leaves the quotient 0. -/
def zeroYielding : ZeroDivision := fun _ => some 0

/-- The quotient `a / b` of two `uint64_t` values.  The source has no check
before the division; with the divisor 0 the outcome is the one of the target,
`on_zero a`. -/
def uint64Div (on_zero : ZeroDivision) (a b : Nat) : Except Fault Nat :=
  if b = 0 then
    match on_zero a with
    | none => Except.error Fault.divideByZero
    | some q => Except.ok (q % pow64)
  else Except.ok (a / b)

/-- The loop of `ComputeCostFromChildren`: `auto child_sum = 0` declares an
`int`, and every child adds its `uint64_t` cost into it. -/
def childSum (children : List TreeNode) : Nat :=
  children.foldl (fun child_sum child => intAddAssign child_sum child.GetCost) 0

/-- The method `ComputeCostFromChildren()`: `return child_sum /
children_.size();`.  The quotient is taken in `uint64_t` (the `int` operand is
converted).  Nothing precedes the division, so that with zero children the
divisor is 0 and the outcome is the one of the target, `on_zero`. -/
def ComputeCostFromChildren (on_zero : ZeroDivision) (n : TreeNode) : Except Fault Nat :=
  uint64Div on_zero (intToUInt64 (childSum n.children_)) n.children_.length

/-- A leaf node with the given cost (depth 1, one visit, action 0). -/
def leafOfCost (c : Nat) : TreeNode := mk true 1 1 [] 0 c

/-- A root node over the given children. -/
def rootOver (cs : List TreeNode) (cost : Nat) : TreeNode :=
  mk false 0 cs.length cs 2147483647 cost

/-- The exact sum of the children's costs. -/
def exactCostSum (children : List TreeNode) : Nat :=
  (children.map GetCost).sum

/-- Modelled from the spec: the body of `TreeNode::BestChild` (only its
declaration is in `tree_node.h`; `tree_node.cpp` is not among the sources).
The spec describes a deterministic arg-min by cost over the children, ties
broken by insertion order.  The scan walks the remaining children with the
index `next` of the child under inspection and keeps the index and cost of the
best child so far; a later child replaces it only when strictly cheaper. -/
def bestChildScan : List TreeNode → Nat → Nat → Nat → Nat
  | [], _, best, _ => best
  | c :: cs, next, best, best_cost =>
    if c.GetCost < best_cost then bestChildScan cs (next + 1) next c.GetCost
    else bestChildScan cs (next + 1) best best_cost

/-- Modelled from the spec: `TreeNode::BestChild`, see `bestChildScan`.  The
returned pointer is given as the index of the child inside `children_`; a node
without children has no best child. -/
def BestChild (n : TreeNode) : Option Nat :=
  match n.children_ with
  | [] => none
  | c :: cs => some (bestChildScan cs 1 0 c.GetCost)

/-- The property of a best child: position `r` holds a child of least cost, and
every child before it costs strictly more. -/
def IsFirstCheapest (all : List TreeNode) (r : Nat) : Prop :=
  ∃ b, all[r]? = some b ∧ (∀ c ∈ all, b.GetCost ≤ c.GetCost)
    ∧ ∀ j c, j < r → all[j]? = some c → b.GetCost < c.GetCost

end TreeNode

/-! ## Grouping pipeline features by operating unit -/

/-- One entry of `PipelineData::features_`: an operating-unit feature with its
`ExecutionOperatingUnitType` (an enumeration, given by its number) and the
vector returned by `GetAllAttributes()`.  The attribute vector is a
`std::vector<double>`; it is only copied, so its type is left open. -/
structure ExecutionOperatingUnitFeature (α : Type) where
  type_ : Nat
  attributes_ : α

/-- The record `metrics::PipelineMetricRawData::PipelineData` as far as
`GroupFeaturesByOU` reads it. -/
structure PipelineData (α : Type) where
  query_id_ : Nat
  pipeline_id_ : Nat
  features_ : List (ExecutionOperatingUnitFeature α)

/-- The map `std::unordered_map<ExecutionOperatingUnitType,
std::vector<std::vector<double>>>` as a list of entries with distinct keys. -/
abbrev OUFeatureMap (α : Type) := List (Nat × List α)

/-- The call `ou_to_features->find(type)`; `none` stands for `end()`.  The
same lookup underlies `ou_to_features->at(type)`, where `none` means that
`std::out_of_range` is thrown. -/
def OUFeatureMap.find {α : Type} : OUFeatureMap α → Nat → Option (List α)
  | [], _ => none
  | (k, v) :: rest, type => if k = type then some v else OUFeatureMap.find rest type

/-- The statement `ou_to_features->at(type).push_back(attrs)` on a map that
holds the key. -/
def OUFeatureMap.pushBack {α : Type} : OUFeatureMap α → Nat → α → OUFeatureMap α
  | [], _, _ => []
  | (k, v) :: rest, type, attrs =>
    if k = type then (k, v ++ [attrs]) :: rest
    else (k, v) :: OUFeatureMap.pushBack rest type attrs

/-- The two objects `GroupFeaturesByOU` writes through its pointer arguments. -/
structure GroupOutput (α : Type) where
  pipeline_to_ou_position : List (Nat × Nat × Nat)
  ou_to_features : OUFeatureMap α

namespace PilotUtil

/-- The body of the inner loop of `GroupFeaturesByOU` for one feature `ou_it`
of the record with the given ids.  The tuple is appended first, with position 0
when the type has no batch and the batch size otherwise.  Then
`ou_to_features->at(type)` is evaluated: on a missing key it throws
`std::out_of_range`, and `Except.error` carries the outputs as they are at that
moment. -/
def groupFeature {α : Type} (query_id pipeline_id : Nat) (out : GroupOutput α)
    (ou_it : ExecutionOperatingUnitFeature α) :
    Except (GroupOutput α) (GroupOutput α) :=
  let position :=
    match out.ou_to_features.find ou_it.type_ with
    | none => 0
    | some batch => batch.length
  let positions := out.pipeline_to_ou_position ++ [(query_id, pipeline_id, position)]
  match out.ou_to_features.find ou_it.type_ with
  | none => Except.error ⟨positions, out.ou_to_features⟩
  | some _ =>
    Except.ok ⟨positions, out.ou_to_features.pushBack ou_it.type_ ou_it.attributes_⟩

/-- The inner loop `for (auto &ou_it : data_it.features_)`. -/
def groupFeatures {α : Type} (query_id pipeline_id : Nat) :
    GroupOutput α → List (ExecutionOperatingUnitFeature α) →
    Except (GroupOutput α) (GroupOutput α)
  | out, [] => Except.ok out
  | out, ou_it :: rest =>
    match groupFeature query_id pipeline_id out ou_it with
    | Except.error thrown => Except.error thrown
    | Except.ok out1 => groupFeatures query_id pipeline_id out1 rest

/-- The function `PilotUtil::GroupFeaturesByOU`: the outer loop
`for (auto &data_it : pipeline_data)`.  `Except.ok` is a normal return with the
final outputs, `Except.error` the exit by `std::out_of_range`. -/
def GroupFeaturesByOU {α : Type} :
    GroupOutput α → List (PipelineData α) → Except (GroupOutput α) (GroupOutput α)
  | out, [] => Except.ok out
  | out, data_it :: rest =>
    match groupFeatures data_it.query_id_ data_it.pipeline_id_ out data_it.features_ with
    | Except.error thrown => Except.error thrown
    | Except.ok out1 => GroupFeaturesByOU out1 rest

/-- The operating-unit features of a list of records in the order the two
loops of `GroupFeaturesByOU` meet them, each with the ids of its record. -/
def traversal {α : Type} (records : List (PipelineData α)) :
    List (Nat × Nat × ExecutionOperatingUnitFeature α) :=
  records.flatMap (fun data_it =>
    data_it.features_.map (fun ou_it => (data_it.query_id_, data_it.pipeline_id_, ou_it)))

/-- The loop body `groupFeature` run over a traversal. -/
def groupTraversal {α : Type} :
    GroupOutput α → List (Nat × Nat × ExecutionOperatingUnitFeature α) →
    Except (GroupOutput α) (GroupOutput α)
  | out, [] => Except.ok out
  | out, (query_id, pipeline_id, ou_it) :: rest =>
    match groupFeature query_id pipeline_id out ou_it with
    | Except.error thrown => Except.error thrown
    | Except.ok out1 => groupTraversal out1 rest

/-- The attribute vectors of the features of type `type` in a traversal, in
order. -/
def attributesOfType {α : Type} (type : Nat)
    (flat : List (Nat × Nat × ExecutionOperatingUnitFeature α)) : List α :=
  (flat.filter (fun x => decide (x.2.2.type_ = type))).map (fun x => x.2.2.attributes_)

/-! ## Replaying the forecast -/

/-- The calls of the replay loop that can throw. -/
inductive ReplayStep where
  | parse
  | bind
  | optimize
  | compile
  | run
  deriving DecidableEq

/-- An exception leaving the replay loop: the call that threw and the exception
it threw. -/
structure ReplayError where
  step : ReplayStep
  exception : Nat
  deriving DecidableEq

/-- Calls made on the transaction manager. -/
inductive TxnEvent where
  | begin_ (txn : Nat)
  | abort_ (txn : Nat)
  | commit_ (txn : Nat)
  deriving DecidableEq

/-- How `CollectPipelineFeatures` ends: by returning the aggregated
`pipeline_data_`, by an exception of the replay loop, or in the failing
`NOISEPAGE_ASSERT`. -/
inductive CollectResult (ρ : Type) where
  | returned (pipeline_data : List ρ)
  | thrown (e : ReplayError)
  | assertionFailed

/-- The calls made on the transaction manager and the way the function ends. -/
structure CollectOutcome (ρ : Type) where
  txn_log : List TxnEvent
  result : CollectResult ρ

/-- The (query id, parameter binding) pairs in the order of the two nested
loops over `forecast->query_id_to_params_`. -/
def replayPairs {β : Type} (query_id_to_params_ : List (Nat × List β)) : List (Nat × β) :=
  query_id_to_params_.flatMap (fun it => it.2.map (fun params => (it.1, params)))

/-- The two nested loops of `CollectPipelineFeatures` over the remaining pairs.
`next_txn` names the transaction `BeginTransaction` returns next, and
`engine txn qid params` tells which of `BuildParseTree`, `BindNameToNode`,
`Optimize`, `Compile`, `Run` throws for the pair replayed in that transaction,
if any.  An exception leaves the loop at once; `Abort(txn)` is the last
statement of the loop body. -/
def replayLoop {β : Type} (engine : Nat → Nat → β → Option ReplayError) :
    List (Nat × β) → Nat → List TxnEvent → List TxnEvent × Option ReplayError
  | [], _, log => (log, none)
  | (qid, params) :: rest, next_txn, log =>
    match engine next_txn qid params with
    | some e => (log ++ [TxnEvent.begin_ next_txn], some e)
    | none =>
      replayLoop engine rest (next_txn + 1)
        (log ++ [TxnEvent.begin_ next_txn, TxnEvent.abort_ next_txn])

/-- The function `PilotUtil::CollectPipelineFeatures`.  `aggregated` is the
`pipeline_data_` list the metrics manager holds after `Aggregate()`, and
`asserts` tells whether `NOISEPAGE_ASSERT` is compiled in. -/
def CollectPipelineFeatures {β ρ : Type} (engine : Nat → Nat → β → Option ReplayError)
    (query_id_to_params_ : List (Nat × List β)) (aggregated : List ρ)
    (asserts : Bool) : CollectOutcome ρ :=
  match replayLoop engine (replayPairs query_id_to_params_) 0 [] with
  | (log, some e) => ⟨log, CollectResult.thrown e⟩
  | (log, none) =>
    if asserts && decide (aggregated.length < query_id_to_params_.length) then
      ⟨log, CollectResult.assertionFailed⟩
    else ⟨log, CollectResult.returned aggregated⟩

/-- An engine in which the bind step of the pair replayed in transaction `bad`
throws exception 7 and every other call succeeds. -/
def bindFailsAt (bad : Nat) : Nat → Nat → Nat → Option ReplayError :=
  fun txn _ _ => if txn = bad then some ⟨ReplayStep.bind, 7⟩ else none

/-- A forecast with one query (id 1) and three sampled parameter bindings. -/
def threeBindings : List (Nat × List Nat) := [(1, [10, 11, 12])]

end PilotUtil

/-! ## The workload forecast -/

/-- The class `WorkloadForecast` as far as segmentation uses it.
`query_timestamp_to_id_` is the `std::multimap` from timestamp to query id, given
as the list of its (timestamp, query id) entries.  A `WorkloadForecastSegment`
is given by the trace entries that fall into it. -/
structure WorkloadForecast where
  query_timestamp_to_id_ : List (Nat × Nat)
  forecast_segments_ : List (List (Nat × Nat))
  num_forecast_segment_ : Nat
  forecast_interval_ : Nat

namespace WorkloadForecast

/-- The method `GetNumberOfSegments()`: `return num_forecast_segment_;`. -/
def GetNumberOfSegments (wf : WorkloadForecast) : Nat := wf.num_forecast_segment_

/-- Smallest timestamp of a trace (0 for the empty trace). -/
def minTimestamp : List (Nat × Nat) → Nat
  | [] => 0
  | [e] => e.1
  | e :: rest => min e.1 (minTimestamp rest)

/-- Largest timestamp of a trace (0 for the empty trace). -/
def maxTimestamp : List (Nat × Nat) → Nat
  | [] => 0
  | e :: rest => max e.1 (maxTimestamp rest)

/-- Modelled from the spec: the segment of a trace event at timestamp `t`,
`floor((t - min_ts) / interval)` (`CreateSegments` is only declared in
`workload_forecast.h`; `workload_forecast.cpp` is not among the sources). -/
def segmentIndex (min_ts interval t : Nat) : Nat := (t - min_ts) / interval

/-- Modelled from the spec: the number of segments,
`ceil(horizon / interval)` with `horizon = max_ts - min_ts`
(`workload_forecast.cpp` is not among the sources). -/
def segmentCount (min_ts max_ts interval : Nat) : Nat :=
  (max_ts - min_ts + interval - 1) / interval

/-- Modelled from the spec: the content of segment `i`, the trace entries whose
segment index is `i` (`workload_forecast.cpp` is not among the sources). -/
def segmentEvents (trace : List (Nat × Nat)) (min_ts interval i : Nat) : List (Nat × Nat) :=
  trace.filter (fun e => decide (segmentIndex min_ts interval e.1 = i))

/-- Modelled from the spec: `WorkloadForecast::CreateSegments`
(`workload_forecast.cpp` is not among the sources).  It builds
`ceil(horizon / interval)` segments, segment `i` holding the trace events with
`floor((t - min_ts) / interval) = i`, and records their number. -/
def CreateSegments (wf : WorkloadForecast) : WorkloadForecast :=
  let min_ts := minTimestamp wf.query_timestamp_to_id_
  let max_ts := maxTimestamp wf.query_timestamp_to_id_
  let segments :=
    (List.range (segmentCount min_ts max_ts wf.forecast_interval_)).map
      (segmentEvents wf.query_timestamp_to_id_ min_ts wf.forecast_interval_)
  { wf with forecast_segments_ := segments, num_forecast_segment_ := segments.length }

/-- A forecast holding a loaded trace and no segments yet (the state after
`LoadQueryTrace`). -/
def loaded (trace : List (Nat × Nat)) (interval : Nat) : WorkloadForecast :=
  ⟨trace, [], 0, interval⟩

/-- Ten occurrences of query 1 at timestamps spread over `0..99`. -/
def scenarioTrace : List (Nat × Nat) :=
  [(0, 1), (11, 1), (22, 1), (33, 1), (44, 1), (55, 1), (66, 1), (77, 1), (88, 1), (99, 1)]

end WorkloadForecast

end noisepage.selfdriving

namespace noisepage.selfdriving

namespace TreeNode

/-- Modelled from the spec: the node the constructor `TreeNode(parent,
current_action, cost)` builds for a child of a node of depth `parent_depth`
(the constructor is only declared in `tree_node.h`; `tree_node.cpp` is not among
the sources): a leaf one edge below its parent, holding the action that leads
to it and its cost as a leaf, and counting as one leaf. -/
def newChild (parent_depth current_action cost : Nat) : TreeNode :=
  mk true (parent_depth + 1) 1 [] current_action cost

/-- Modelled from the spec: `TreeNode::ChildrenRollout` (only its declaration is
in `tree_node.h`; `tree_node.cpp` is not among the sources).  By the spec, for
each candidate action not yet exhausted on the path to the node a child is
attached whose cost comes from one evaluation of the cost oracle, and the node
is expanded afterwards.  `candidate_actions_` lists the candidate set in its
iteration order, `exhausted a` tells whether action `a` is exhausted on the path
to the node, and `oracle a` is the cost the oracle returns with `a` applied. -/
def ChildrenRollout (exhausted : Nat → Bool) (oracle : Nat → Nat)
    (candidate_actions_ : List Nat) (n : TreeNode) : TreeNode :=
  mk false n.GetDepth n.number_of_visits_
    (n.children_ ++
      (candidate_actions_.filter (fun a => !exhausted a)).map
        (fun a => newChild n.GetDepth a (oracle a)))
    n.GetCurrentAction n.GetCost

/-- A root that has not been expanded: depth 0, no action, no children. -/
def freshRoot (cost : Nat) : TreeNode := mk true 0 1 [] 2147483647 cost

end TreeNode

end noisepage.selfdriving

namespace noisepage.selfdriving

namespace pilot

/-- The class `settings::SettingsManager` as far as the knob actions and their
test read it: `GetBool(param)`, `GetInt64(param)` and `GetParamInfo(param).name_`.
A `settings::Param` is given by its number. -/
structure SettingsManager where
  GetBool : Nat → Bool
  GetInt64 : Nat → Int
  name_ : Nat → String

/-- The two tables of `ChangeKnobValueConfig`: `GetBoolChangeValueMap()` and
`GetInt64ChangeValueMap()`, each as the list of its entries (knob, value pairs)
in iteration order. -/
structure ChangeKnobValueConfig where
  bool_change_value_map : List (Nat × List (Bool × Bool))
  int64_change_value_map : List (Nat × List (Int × Int))

/-- Modelled from the spec: an action of the change-knob generator
(`change_knob_action_generator.h` and the action classes are not among the
sources).  By the spec an action toggles a boolean knob or applies a signed
delta to a numeric knob. -/
inductive ChangeKnobAction where
  | toggleBool (param : Nat)
  | deltaInt64 (param : Nat) (change_value : Int)
  deriving DecidableEq

/-- Modelled from the spec: `AbstractAction::GetSQLCommand` of a change-knob
action (the action classes are not among the sources).  A toggle sets the knob
to the negation of its current value and a delta sets it to the current value
plus the change value.  The spec leaves the command text open; it is written
the way the test `GenerateChangeKnobAction.GenerateAction` expects it, with the
`int64_t` sum taken without overflow. -/
def ChangeKnobAction.GetSQLCommand (settings_manager : SettingsManager) :
    ChangeKnobAction → String
  | toggleBool param =>
    "set " ++ settings_manager.name_ param
      ++ (if settings_manager.GetBool param then " 'false';" else " 'true';")
  | deltaInt64 param change_value =>
    "set " ++ settings_manager.name_ param ++ " "
      ++ toString (settings_manager.GetInt64 param + change_value) ++ ";"

/-- Modelled from the spec: the actions `ChangeKnobActionGenerator` builds
(`change_knob_action_generator.cpp` is not among the sources).  A boolean toggle
is self-inverse, so a boolean knob gets one action; a numeric delta pairs with
its reverse, so every value pair of a numeric knob gets two actions, one per
member of the pair. -/
def knobActions (config : ChangeKnobValueConfig) : List ChangeKnobAction :=
  config.bool_change_value_map.map (fun it => ChangeKnobAction.toggleBool it.1)
    ++ config.int64_change_value_map.flatMap (fun it =>
        it.2.flatMap (fun value_pair =>
          [ChangeKnobAction.deltaInt64 it.1 value_pair.1,
           ChangeKnobAction.deltaInt64 it.1 value_pair.2]))

/-- Modelled from the spec: `ChangeKnobActionGenerator::GenerateActions` called
with an empty `action_map` and an empty `candidate_actions`
(`change_knob_action_generator.cpp` is not among the sources).  Every action
gets the next action id, counted from `next_action_id`; the result is the
`action_map` as the list of its (id, action) entries and `candidate_actions`. -/
def GenerateActions (config : ChangeKnobValueConfig) (next_action_id : Nat) :
    List (Nat × ChangeKnobAction) × List Nat :=
  (List.enumFrom next_action_id (knobActions config),
    List.range' next_action_id (knobActions config).length)

/-- The value `num_actions` of the test `GenerateChangeKnobAction.GenerateAction`:
`bool_change_value_map->size()` plus `it.second.size() * 2` for every entry of
the int64 map. -/
def expectedNumActions (config : ChangeKnobValueConfig) : Nat :=
  config.int64_change_value_map.foldl (fun num_actions it => num_actions + it.2.length * 2)
    config.bool_change_value_map.length

/-- The string the test builds for a boolean knob: `"set " + name`, then
`+= original_value ? " 'false';" : " 'true';"`. -/
def expectedBoolCommand (settings_manager : SettingsManager) (param : Nat) : String :=
  ("set " ++ settings_manager.name_ param)
    ++ (if settings_manager.GetBool param then " 'false';" else " 'true';")

/-- The string the test builds for an int64 knob and one member `value` of a
value pair: `"set " + name`, then
`+= " " + std::to_string(original_value + value) + ";"`. -/
def expectedInt64Command (settings_manager : SettingsManager) (param : Nat) (value : Int) :
    String :=
  ("set " ++ settings_manager.name_ param)
    ++ ((" " ++ toString (settings_manager.GetInt64 param + value)) ++ ";")

/-- The set `expected_commands` of the test, as the list of the strings emplaced
into it, in order. -/
def expectedCommands (settings_manager : SettingsManager) (config : ChangeKnobValueConfig) :
    List String :=
  config.bool_change_value_map.map (fun it => expectedBoolCommand settings_manager it.1)
    ++ config.int64_change_value_map.flatMap (fun it =>
        it.2.flatMap (fun value_pair =>
          [expectedInt64Command settings_manager it.1 value_pair.1,
           expectedInt64Command settings_manager it.1 value_pair.2]))

/-- The set `commands` of the test: the SQL command of every entry of
`action_map`. -/
def generatedCommands (settings_manager : SettingsManager)
    (action_map : List (Nat × ChangeKnobAction)) : List String :=
  action_map.map (fun it => it.2.GetSQLCommand settings_manager)

/-- A settings state with one boolean knob (0) switched on and one numeric knob
(1) at 100. -/
def sampleSettings : SettingsManager :=
  ⟨fun _ => true, fun _ => 100, fun p => if p = 0 then "flag" else "size"⟩

/-- A configuration with one boolean knob and one numeric knob with the value
pairs (10, -10) and (50, -50). -/
def sampleConfig : ChangeKnobValueConfig :=
  ⟨[(0, [(true, true)])], [(1, [(10, -10), (50, -50)])]⟩

end pilot

end noisepage.selfdriving

namespace noisepage.catalog.postgres

/-! ## The procedure catalog `pg_proc` -/

/-- Constants and build settings that `pg_proc_impl.cpp` takes from headers
outside the sources: `INVALID_PROC_OID`, `PgProc::PRO_TABLE_OID`,
`LANGUAGE_TABLE_OID`, the type oid `dbc->GetTypeOidForType(type::TypeId::VARIADIC)`,
the character `PgProc::ProVolatile::STABLE`, and whether `NOISEPAGE_ASSERT` is
compiled in. -/
structure CatalogEnv where
  INVALID_PROC_OID : Nat
  PRO_TABLE_OID : Nat
  LANGUAGE_TABLE_OID : Nat
  VARIADIC : Nat
  STABLE : Nat
  asserts : Bool

/-- One row of `pg_proc`, column by column as `CreateProcedure` sets it.  A
`NULL` column is `none`; `pro_ctx_ptr` holds the `FunctionContext` pointer as a
number.  The two `double` columns only ever receive the constant 0. -/
structure PgProcRow where
  prooid : Nat
  proname : String
  pronamespace : Nat
  prolang : Nat
  procost : Nat
  prorows : Nat
  provariadic : Nat
  proisagg : Bool
  proiswindow : Bool
  proisstrict : Bool
  proretset : Bool
  provolatile : Nat
  pronargs : Nat
  pronargdefaults : Nat
  prorettype : Nat
  proargtypes : List Nat
  proallargtypes : List Nat
  proargmodes : List Nat
  proargdefaults : Option Nat
  proargnames : List String
  prosrc : String
  proconfig : Option Nat
  pro_ctx_ptr : Option Nat
  deriving DecidableEq

/-- A tuple of a `storage::SqlTable` as one transaction sees it: its content and
whether it is logically deleted.  The content of a deleted tuple stays in its
slot. -/
structure TableTuple where
  row : PgProcRow
  deleted : Bool
  deriving DecidableEq

/-- The table `procs_` as the calling transaction sees it.  A `TupleSlot` is the
position of a tuple in `tuples`; `write_locked` lists the slots on which another
transaction holds the write lock, so that `Update` and `Delete` fail there. -/
structure SqlTable where
  tuples : List TableTuple
  write_locked : List Nat
  deriving DecidableEq

namespace SqlTable

/-- The call `Insert(txn, redo)`: the tuple goes into a fresh slot, which is
returned. -/
def Insert (table : SqlTable) (row : PgProcRow) : SqlTable × Nat :=
  ({ table with tuples := table.tuples ++ [⟨row, false⟩] }, table.tuples.length)

/-- Whether the tuple in `slot` exists and is visible to the transaction. -/
def visible (table : SqlTable) (slot : Nat) : Bool :=
  match table.tuples[slot]? with
  | some tuple => !tuple.deleted
  | none => false

/-- The content `Select(txn, slot, row)` materialises, if the slot holds a
tuple. -/
def Select (table : SqlTable) (slot : Nat) : Option PgProcRow :=
  match table.tuples[slot]? with
  | some tuple => some tuple.row
  | none => none

/-- Whether the transaction may write the tuple in `slot`: the tuple is visible
and no other transaction holds its write lock. -/
def writable (table : SqlTable) (slot : Nat) : Bool :=
  table.visible slot && !decide (slot ∈ table.write_locked)

/-- The call `Delete(txn, slot)`; `none` stands for the return value `false`. -/
def Delete (table : SqlTable) (slot : Nat) : Option SqlTable :=
  if table.writable slot then
    some { table with
      tuples := table.tuples.modify (fun tuple => { tuple with deleted := true }) slot }
  else none

/-- The call `Update(txn, redo)` for a redo record on `slot` whose delta sets
the column `pro_ctx_ptr`; `none` stands for the return value `false`. -/
def UpdateCtxPtr (table : SqlTable) (slot : Nat) (func_context : Nat) : Option SqlTable :=
  if table.writable slot then
    some { table with
      tuples := table.tuples.modify
        (fun tuple => { tuple with row := { tuple.row with pro_ctx_ptr := some func_context } })
        slot }
  else none

end SqlTable

/-- An index of the catalog: its (key, tuple slot) entries in scan order. -/
abbrev Index (κ : Type) := List (κ × Nat)

namespace Index

/-- The call `ScanKey(txn, key, &results)`: the slots of the entries with the
key whose tuple is visible to the transaction, in scan order. -/
def ScanKey {κ : Type} [DecidableEq κ] (index : Index κ) (table : SqlTable) (key : κ) :
    List Nat :=
  (index.filter (fun entry => decide (entry.1 = key) && table.visible entry.2)).map Prod.snd

/-- The call `Insert(txn, key, slot)` on an index with non-unique keys: it fails
when the (key, slot) pair is already present; `none` stands for `false`. -/
def Insert {κ : Type} [DecidableEq κ] (index : Index κ) (key : κ) (slot : Nat) :
    Option (Index κ) :=
  if (key, slot) ∈ index then none else some (index ++ [(key, slot)])

/-- The call `InsertUnique(txn, key, slot)`: it fails when the key already has a
visible tuple; `none` stands for `false`. -/
def InsertUnique {κ : Type} [DecidableEq κ] (index : Index κ) (table : SqlTable) (key : κ)
    (slot : Nat) : Option (Index κ) :=
  if (ScanKey index table key).isEmpty then some (index ++ [(key, slot)]) else none

/-- The call `Delete(txn, key, slot)`: the (key, slot) pair leaves the index. -/
def Delete {κ : Type} [DecidableEq κ] (index : Index κ) (key : κ) (slot : Nat) : Index κ :=
  index.filter (fun entry => !decide (entry = (key, slot)))

end Index

/-- What a staged redo record writes: all columns of a new row, or the column
`pro_ctx_ptr`. -/
inductive Delta where
  | allColumns (row : PgProcRow)
  | ctxPtr (func_context : Nat)
  deriving DecidableEq

/-- A record staged in the transaction by `StageWrite` or `StageDelete`, with the
database oid, the table oid and the tuple slot it names. -/
inductive StagedRecord where
  | redo (db_oid table_oid slot : Nat) (delta : Delta)
  | delete (db_oid table_oid slot : Nat)
  deriving DecidableEq

/-- The `transaction::TransactionContext` as far as `PgProcImpl` uses it: the
records staged so far and the tuple slots whose procedure context a registered
commit action frees. -/
structure TransactionContext where
  staged : List StagedRecord
  commit_actions : List Nat
  deriving DecidableEq

/-- The class `PgProcImpl`: the database oid, the table `procs_` and its two
indexes, `procs_oid_index_` keyed by the procedure oid and `procs_name_index_`
keyed by (namespace oid, name). -/
structure PgProcImpl where
  db_oid_ : Nat
  procs_ : SqlTable
  procs_oid_index_ : Index Nat
  procs_name_index_ : Index (Nat × String)
  deriving DecidableEq

/-- How a call can end without a return value: in a failing `NOISEPAGE_ASSERT`,
in undefined behaviour (an access to `results[0]` of an empty vector, a null
dereference), or by the `BINDER_EXCEPTION` with
`ERRCODE_DUPLICATE_FUNCTION`. -/
inductive Failure where
  | assertion
  | undefinedBehaviour
  | duplicateFunction
  deriving DecidableEq

namespace PgProcImpl

/-- The row `CreateProcedure` prepares in `delta`. -/
def newRow (env : CatalogEnv) (oid : Nat) (procname : String) (language_oid procns : Nat)
    (args : List String) (arg_types all_arg_types arg_modes : List Nat) (rettype : Nat)
    (src : String) (is_aggregate : Bool) : PgProcRow where
  prooid := oid
  proname := procname
  pronamespace := procns
  prolang := language_oid
  procost := 0
  prorows := 0
  provariadic := 0
  proisagg := is_aggregate
  proiswindow := false
  proisstrict := true
  proretset := false
  provolatile := env.STABLE
  pronargs := args.length % 65536
  pronargdefaults := 0
  prorettype := rettype
  proargtypes := arg_types
  proallargtypes := all_arg_types
  proargmodes := arg_modes
  proargdefaults := none
  proargnames := args
  prosrc := src
  proconfig := none
  pro_ctx_ptr := none

/-- The method `PgProcImpl::CreateProcedure`.  The result is the catalog and the
transaction after the call and the returned `bool`. -/
def CreateProcedure (env : CatalogEnv) (impl : PgProcImpl) (txn : TransactionContext)
    (oid : Nat) (procname : String) (language_oid procns : Nat) (args : List String)
    (arg_types all_arg_types arg_modes : List Nat) (rettype : Nat) (src : String)
    (is_aggregate : Bool) : Except Failure (PgProcImpl × TransactionContext × Bool) :=
  if env.asserts && !decide (args.length < 65535) then Except.error Failure.assertion
  else
    let row := newRow env oid procname language_oid procns args arg_types all_arg_types
      arg_modes rettype src is_aggregate
    let inserted := impl.procs_.Insert row
    let tuple_slot := inserted.2
    let txn1 : TransactionContext :=
      { txn with staged := txn.staged
          ++ [StagedRecord.redo impl.db_oid_ env.PRO_TABLE_OID tuple_slot (Delta.allColumns row)] }
    match Index.Insert impl.procs_name_index_ (procns, procname) tuple_slot with
    | none => Except.ok ({ impl with procs_ := inserted.1 }, txn1, false)
    | some name_index =>
      match Index.InsertUnique impl.procs_oid_index_ inserted.1 oid tuple_slot with
      | none =>
        if env.asserts then Except.error Failure.assertion
        else Except.ok
          ({ impl with procs_ := inserted.1, procs_name_index_ := name_index }, txn1, true)
      | some oid_index =>
        Except.ok
          ({ impl with procs_ := inserted.1, procs_name_index_ := name_index,
                       procs_oid_index_ := oid_index }, txn1, true)

/-- The method `PgProcImpl::DropProcedure`. -/
def DropProcedure (env : CatalogEnv) (impl : PgProcImpl) (txn : TransactionContext)
    (proc : Nat) : Except Failure (PgProcImpl × TransactionContext × Bool) :=
  if env.asserts && decide (proc = env.INVALID_PROC_OID) then Except.error Failure.assertion
  else
    match Index.ScanKey impl.procs_oid_index_ impl.procs_ proc with
    | [] => Except.ok (impl, txn, false)
    | to_delete_slot :: more =>
      if env.asserts && !more.isEmpty then Except.error Failure.assertion
      else
        let txn1 : TransactionContext :=
          { txn with staged := txn.staged
              ++ [StagedRecord.delete impl.db_oid_ env.LANGUAGE_TABLE_OID to_delete_slot] }
        match impl.procs_.Delete to_delete_slot with
        | none => Except.ok (impl, txn1, false)
        | some table =>
          let oid_index := Index.Delete impl.procs_oid_index_ proc to_delete_slot
          match table.Select to_delete_slot with
          | none => Except.error Failure.undefinedBehaviour
          | some row =>
            let name_index :=
              Index.Delete impl.procs_name_index_ (row.pronamespace, row.proname) to_delete_slot
            let txn2 : TransactionContext :=
              match row.pro_ctx_ptr with
              | none => txn1
              | some _ => { txn1 with commit_actions := txn1.commit_actions ++ [to_delete_slot] }
            Except.ok
              ({ impl with procs_ := table, procs_oid_index_ := oid_index,
                           procs_name_index_ := name_index }, txn2, true)

/-- The method `PgProcImpl::SetProcCtxPtr`. -/
def SetProcCtxPtr (env : CatalogEnv) (impl : PgProcImpl) (txn : TransactionContext)
    (proc_oid func_context : Nat) : Except Failure (PgProcImpl × TransactionContext × Bool) :=
  let index_results := Index.ScanKey impl.procs_oid_index_ impl.procs_ proc_oid
  if env.asserts && !decide (index_results.length = 1) then Except.error Failure.assertion
  else
    match index_results with
    | [] => Except.error Failure.undefinedBehaviour
    | slot :: _ =>
      let txn1 : TransactionContext :=
        { txn with staged := txn.staged
            ++ [StagedRecord.redo impl.db_oid_ env.PRO_TABLE_OID slot (Delta.ctxPtr func_context)] }
      match impl.procs_.UpdateCtxPtr slot func_context with
      | none => Except.ok (impl, txn1, false)
      | some table => Except.ok ({ impl with procs_ := table }, txn1, true)

/-- The method `PgProcImpl::GetProcCtxPtr`. -/
def GetProcCtxPtr (env : CatalogEnv) (impl : PgProcImpl) (proc_oid : Nat) :
    Except Failure Nat :=
  let index_results := Index.ScanKey impl.procs_oid_index_ impl.procs_ proc_oid
  if env.asserts && !decide (index_results.length = 1) then Except.error Failure.assertion
  else
    match index_results with
    | [] => Except.error Failure.undefinedBehaviour
    | slot :: _ =>
      match impl.procs_.Select slot with
      | none => Except.error Failure.undefinedBehaviour
      | some row =>
        match row.pro_ctx_ptr with
        | none =>
          if env.asserts then Except.error Failure.assertion
          else Except.error Failure.undefinedBehaviour
        | some ptr => Except.ok ptr

/-- The test of `GetProcOid` on one entry: `matches_exactly || is_variadic` for
the stored `proargtypes` and the given argument types. -/
def argTypesMatch (env : CatalogEnv) (stored arg_types : List Nat) : Bool :=
  let matches_exactly := decide (stored = arg_types)
  let is_variadic := decide (stored = [env.VARIADIC]) && !arg_types.isEmpty
  matches_exactly || is_variadic

/-- The loop of `GetProcOid` over the remaining index results: the first tuple
that matches has its oid pushed to `matching_functions`, and the loop ends there
(`break`).  Every result of `ScanKey` holds a tuple, so `Select` finds it. -/
def matchLoop (env : CatalogEnv) (table : SqlTable) (arg_types : List Nat) :
    List Nat → List Nat → List Nat
  | [], matching_functions => matching_functions
  | tuple :: rest, matching_functions =>
    match table.Select tuple with
    | none => matchLoop env table arg_types rest matching_functions
    | some row =>
      if argTypesMatch env row.proargtypes arg_types then matching_functions ++ [row.prooid]
      else matchLoop env table arg_types rest matching_functions

/-- The method `PgProcImpl::GetProcOid`: the returned oid, or the exception. -/
def GetProcOid (env : CatalogEnv) (impl : PgProcImpl) (procns : Nat) (procname : String)
    (arg_types : List Nat) : Except Failure Nat :=
  let results := Index.ScanKey impl.procs_name_index_ impl.procs_ (procns, procname)
  let matching_functions :=
    if results.isEmpty then [] else matchLoop env impl.procs_ arg_types results []
  match matching_functions with
  | [] => Except.ok env.INVALID_PROC_OID
  | [ret] => Except.ok ret
  | _ :: _ :: _ => Except.error Failure.duplicateFunction

/-- The rows of the visible entries of the name index under a key, in scan
order. -/
def namedRows (impl : PgProcImpl) (procns : Nat) (procname : String) : List PgProcRow :=
  (Index.ScanKey impl.procs_name_index_ impl.procs_ (procns, procname)).filterMap
    impl.procs_.Select

/-- Sample constants: invalid oid 0, `pg_language` table 71, `pg_proc` table 81,
variadic type 9, asserts compiled in. -/
def sampleEnv : CatalogEnv := ⟨0, 81, 71, 9, 115, true⟩

/-- An empty catalog of database 1. -/
def emptyCatalog : PgProcImpl := ⟨1, ⟨[], []⟩, [], []⟩

/-- A transaction that has staged nothing. -/
def emptyTxn : TransactionContext := ⟨[], []⟩

end PgProcImpl

end noisepage.catalog.postgres

namespace noisepage.catalog.postgres

namespace PgProcImpl

/-- The catalog after two procedures named `f` were created in namespace 15:
oid 1001 with the variadic signature and oid 1002 with the signature `[4]`. -/
def twoProcedures : PgProcImpl :=
  ⟨1,
    ⟨[⟨newRow sampleEnv 1001 "f" 12 15 ["x"] [9] [9] [] 4 "" false, false⟩,
      ⟨newRow sampleEnv 1002 "f" 12 15 ["x"] [4] [4] [] 4 "" false, false⟩], []⟩,
    [(1001, 0), (1002, 1)],
    [((15, "f"), 0), ((15, "f"), 1)]⟩

/-- The catalog `twoProcedures` after the context pointer 77 was set for
procedure 1002. -/
def twoProceduresWithContext : PgProcImpl :=
  ⟨1,
    ⟨[⟨newRow sampleEnv 1001 "f" 12 15 ["x"] [9] [9] [] 4 "" false, false⟩,
      ⟨{ newRow sampleEnv 1002 "f" 12 15 ["x"] [4] [4] [] 4 "" false with
          pro_ctx_ptr := some 77 }, false⟩], []⟩,
    [(1001, 0), (1002, 1)],
    [((15, "f"), 0), ((15, "f"), 1)]⟩

end PgProcImpl

end noisepage.catalog.postgres

namespace noisepage.selfdriving

namespace PilotUtil

/-- The (query id, pipeline id, operating-unit type, attribute vector)
associations recoverable from the outputs of `GroupFeaturesByOU`: the tuples of
`pipeline_to_ou_position` are met in the order of the traversal, and the tuple
of a feature names the place of its attribute vector in the batch of its type.
The vector is `none` when that batch or place does not exist. -/
def recoveredAssociations {α : Type} (out : GroupOutput α)
    (flat : List (Nat × Nat × ExecutionOperatingUnitFeature α)) :
    List (Nat × Nat × Nat × Option α) :=
  List.zipWith
    (fun position x =>
      (position.1, position.2.1, x.2.2.type_,
        (out.ou_to_features.find x.2.2.type_).bind (fun batch => batch[position.2.2]?)))
    out.pipeline_to_ou_position flat

/-- The outputs a call ends with, whether it returns or throws. -/
def finalOutput {α : Type} : Except (GroupOutput α) (GroupOutput α) → GroupOutput α
  | Except.ok out => out
  | Except.error out => out

/-- Two pipeline records with one feature each, of operating-unit types 3 and
4. -/
def twoRecords : List (PipelineData Nat) := [⟨1, 1, [⟨3, 70⟩]⟩, ⟨2, 1, [⟨4, 80⟩]⟩]

/-- The records of `twoRecords` in the other order. -/
def twoRecordsSwapped : List (PipelineData Nat) := [⟨2, 1, [⟨4, 80⟩]⟩, ⟨1, 1, [⟨3, 70⟩]⟩]

end PilotUtil

end noisepage.selfdriving

namespace noisepage.catalog.postgres

/-- Constants that `BootstrapProcs` takes from outside the sources:
`INTERNAL_LANGUAGE_OID`, `NAMESPACE_DEFAULT_NAMESPACE_OID`, and the type oids
`dbc->GetTypeOidForType` returns for `DECIMAL`, `INTEGER`, `VARCHAR`, `DATE` and
`BOOLEAN`.  The type oid of `VARIADIC` is the field `VARIADIC` of `CatalogEnv`. -/
structure BootstrapOids where
  INTERNAL_LANGUAGE_OID : Nat
  NAMESPACE_DEFAULT_NAMESPACE_OID : Nat
  DECIMAL : Nat
  INTEGER : Nat
  VARCHAR : Nat
  DATE : Nat
  BOOLEAN : Nat

/-- What `BootstrapProcs` works on: the `pg_proc` catalog, the transaction, and
the counter `dbc->next_oid_` of the database catalog.  The counter is declared
outside the sources and is kept as a natural number. -/
structure BootstrapState where
  impl : PgProcImpl
  txn : TransactionContext
  next_oid_ : Nat

/-- The arguments of one call of the helper `create_fn` of `BootstrapProcs`. -/
structure CreateFnCall where
  procname : String
  args : List String
  arg_types : List Nat
  all_arg_types : List Nat
  rettype : Nat
  is_aggregate : Bool
  deriving DecidableEq

namespace PgProcImpl

/-- The lambda `create_fn` of `BootstrapProcs`.  It calls `CreateProcedure` with
the next oid of the counter, no argument modes, the empty source text and the
literal `true` as `is_aggregate`; its own parameter `is_aggregate` is not used.
The returned `bool` is dropped. -/
def create_fn (env : CatalogEnv) (oids : BootstrapOids) (state : BootstrapState)
    (procname : String) (args : List String) (arg_types all_arg_types : List Nat)
    (rettype : Nat) (_is_aggregate : Bool) : Except Failure BootstrapState :=
  match CreateProcedure env state.impl state.txn state.next_oid_ procname
      oids.INTERNAL_LANGUAGE_OID oids.NAMESPACE_DEFAULT_NAMESPACE_OID args arg_types
      all_arg_types [] rettype "" true with
  | Except.error failure => Except.error failure
  | Except.ok (impl, txn, _) => Except.ok ⟨impl, txn, state.next_oid_ + 1⟩

/-- The calls of `create_fn` in `BootstrapProcs`, in program order, over the
type oids `DEC`, `INT`, `STR`, `DATE`, `BOOL` and `VAR` of the method. -/
def createFnCallsOf (DEC INT STR DATE BOOL VAR : Nat) : List CreateFnCall :=
  [
    CreateFnCall.mk "abs" ["x"] [DEC] [DEC] DEC true,
    CreateFnCall.mk "abs" ["n"] [INT] [INT] INT true,
    CreateFnCall.mk "ceil" ["x"] [DEC] [DEC] DEC true,
    CreateFnCall.mk "cbrt" ["x"] [DEC] [DEC] DEC true,
    CreateFnCall.mk "exp" ["x"] [DEC] [DEC] DEC true,
    CreateFnCall.mk "floor" ["x"] [DEC] [DEC] DEC true,
    CreateFnCall.mk "log10" ["x"] [DEC] [DEC] DEC true,
    CreateFnCall.mk "log2" ["x"] [DEC] [DEC] DEC true,
    CreateFnCall.mk "mod" ["a", "b"] [DEC, DEC] [DEC, DEC] DEC true,
    CreateFnCall.mk "mod" ["a", "b"] [INT, INT] [INT, INT] INT true,
    CreateFnCall.mk "pow" ["x", "y"] [DEC, DEC] [DEC, DEC] DEC true,
    CreateFnCall.mk "round" ["x", "n"] [DEC, INT] [DEC, INT] DEC true,
    CreateFnCall.mk "round" ["x"] [DEC] [DEC] DEC true,
    CreateFnCall.mk "sqrt" ["x"] [DEC] [DEC] DEC true,
    CreateFnCall.mk "truncate" ["x"] [DEC] [DEC] DEC true,
    CreateFnCall.mk "acos" ["x"] [DEC] [DEC] DEC true,
    CreateFnCall.mk "asin" ["x"] [DEC] [DEC] DEC true,
    CreateFnCall.mk "atan" ["x"] [DEC] [DEC] DEC true,
    CreateFnCall.mk "atan2" ["y", "x"] [DEC, DEC] [DEC, DEC] DEC true,
    CreateFnCall.mk "cos" ["x"] [DEC] [DEC] DEC true,
    CreateFnCall.mk "cosh" ["x"] [DEC] [DEC] DEC true,
    CreateFnCall.mk "cot" ["x"] [DEC] [DEC] DEC true,
    CreateFnCall.mk "sin" ["x"] [DEC] [DEC] DEC true,
    CreateFnCall.mk "sinh" ["x"] [DEC] [DEC] DEC true,
    CreateFnCall.mk "tan" ["x"] [DEC] [DEC] DEC true,
    CreateFnCall.mk "tanh" ["x"] [DEC] [DEC] DEC true,
    CreateFnCall.mk "ascii" ["s"] [STR] [STR] INT true,
    CreateFnCall.mk "btrim" ["s"] [STR] [STR] STR true,
    CreateFnCall.mk "btrim" ["s", "s"] [STR, STR] [STR, STR] STR true,
    CreateFnCall.mk "char_length" ["s"] [STR] [STR] INT true,
    CreateFnCall.mk "chr" ["n"] [INT] [INT] STR true,
    CreateFnCall.mk "concat" ["s"] [VAR] [VAR] STR true,
    CreateFnCall.mk "initcap" ["s"] [STR] [STR] STR true,
    CreateFnCall.mk "lower" ["s"] [STR] [STR] STR true,
    CreateFnCall.mk "left" ["s", "n"] [STR, INT] [STR, INT] STR true,
    CreateFnCall.mk "length" ["s"] [STR] [STR] INT true,
    CreateFnCall.mk "lpad" ["s", "len"] [STR, INT] [STR, INT] STR true,
    CreateFnCall.mk "lpad" ["s", "len", "pad"] [STR, INT, STR] [STR, INT, STR] STR true,
    CreateFnCall.mk "ltrim" ["s"] [STR] [STR] STR true,
    CreateFnCall.mk "ltrim" ["s", "chars"] [STR, STR] [STR, STR] STR true,
    CreateFnCall.mk "position" ["s1", "s2"] [STR, STR] [STR, STR] INT true,
    CreateFnCall.mk "repeat" ["s", "n"] [STR, INT] [STR, INT] STR true,
    CreateFnCall.mk "reverse" ["s"] [STR] [STR] STR true,
    CreateFnCall.mk "right" ["s", "n"] [STR, INT] [STR, INT] STR true,
    CreateFnCall.mk "rpad" ["s", "len"] [STR, INT] [STR, INT] STR true,
    CreateFnCall.mk "rpad" ["s", "len", "pad"] [STR, INT, STR] [STR, INT, STR] STR true,
    CreateFnCall.mk "rtrim" ["s"] [STR] [STR] STR true,
    CreateFnCall.mk "rtrim" ["s", "chars"] [STR, STR] [STR, STR] STR true,
    CreateFnCall.mk "split_part" ["s", "delim", "field"] [STR, STR, INT] [STR, STR, INT] STR true,
    CreateFnCall.mk "starts_with" ["s", "start"] [STR, STR] [STR, STR] BOOL true,
    CreateFnCall.mk "substr" ["s", "pos", "len"] [STR, INT, INT] [STR, INT, INT] STR true,
    CreateFnCall.mk "upper" ["s"] [STR] [STR] STR true,
    CreateFnCall.mk "date_part" ["date, date_part_type"] [DATE, INT] [DATE, INT] INT false,
    CreateFnCall.mk "version" [] [] [] STR false
  ]

/-- The calls of `create_fn` in `BootstrapProcs` with the type oids of the
database catalog: `DEC` for `DECIMAL`, `INT` for `INTEGER`, `STR` for `VARCHAR`,
`DATE`, `BOOL` for `BOOLEAN` and `VAR` for `VARIADIC`. -/
def createFnCalls (env : CatalogEnv) (oids : BootstrapOids) : List CreateFnCall :=
  createFnCallsOf oids.DECIMAL oids.INTEGER oids.VARCHAR oids.DATE oids.BOOLEAN env.VARIADIC

/-- A sequence of `create_fn` calls run one after the other. -/
def createFns (env : CatalogEnv) (oids : BootstrapOids) :
    BootstrapState → List CreateFnCall → Except Failure BootstrapState
  | state, [] => Except.ok state
  | state, call :: rest =>
    match create_fn env oids state call.procname call.args call.arg_types call.all_arg_types
        call.rettype call.is_aggregate with
    | Except.error failure => Except.error failure
    | Except.ok state1 => createFns env oids state1 rest

/-- One of the four direct calls of `CreateProcedure` at the end of
`BootstrapProcs`, with the next oid of the counter and `is_aggregate` false. -/
def createRunner (env : CatalogEnv) (oids : BootstrapOids) (state : BootstrapState)
    (procname : String) (args : List String) (arg_types all_arg_types arg_modes : List Nat)
    (rettype : Nat) : Except Failure BootstrapState :=
  match CreateProcedure env state.impl state.txn state.next_oid_ procname
      oids.INTERNAL_LANGUAGE_OID oids.NAMESPACE_DEFAULT_NAMESPACE_OID args arg_types
      all_arg_types arg_modes rettype "" false with
  | Except.error failure => Except.error failure
  | Except.ok (impl, txn, _) => Except.ok ⟨impl, txn, state.next_oid_ + 1⟩

/-- The method `PgProcImpl::BootstrapProcs` up to its closing call of
`BootstrapProcContexts`: the calls of `create_fn` and the four direct calls of
`CreateProcedure`.  `BootstrapProcContexts` goes through
`DatabaseCatalog::SetProcCtxPtr`, which is outside the sources, and is not part
of this definition.  `IN` is the number of `PgProc::ArgModes::IN`. -/
def BootstrapProcs (env : CatalogEnv) (oids : BootstrapOids) (IN : Nat)
    (state : BootstrapState) : Except Failure BootstrapState :=
  let INT := oids.INTEGER
  let REAL := oids.DECIMAL
  match createFns env oids state (createFnCalls env oids) with
  | Except.error failure => Except.error failure
  | Except.ok state1 =>
    match createRunner env oids state1 "nprunnersemitint"
        ["num_tuples", "num_cols", "num_int_cols", "num_real_cols"] [INT, INT, INT, INT]
        [INT, INT, INT, INT] [IN, IN, IN, IN] INT with
    | Except.error failure => Except.error failure
    | Except.ok state2 =>
      match createRunner env oids state2 "nprunnersemitreal"
          ["num_tuples", "num_cols", "num_int_cols", "num_real_cols"] [INT, INT, INT, INT]
          [INT, INT, INT, INT] [IN, IN, IN, IN] REAL with
      | Except.error failure => Except.error failure
      | Except.ok state3 =>
        match createRunner env oids state3 "nprunnersdummyint" [] [] [] [] INT with
        | Except.error failure => Except.error failure
        | Except.ok state4 => createRunner env oids state4 "nprunnersdummyreal" [] [] [] [] REAL

/-- The visible rows of `pg_proc` with a given name, in table order. -/
def rowsNamed (impl : PgProcImpl) (procname : String) : List PgProcRow :=
  (impl.procs_.tuples.filter
    (fun tuple => !tuple.deleted && decide (tuple.row.proname = procname))).map
    (fun tuple => tuple.row)

/-- Sample constants for the bootstrap: internal language 13, default namespace
15, and the type oids 5, 3, 8, 7 and 1. -/
def sampleOids : BootstrapOids := ⟨13, 15, 5, 3, 8, 7, 1⟩

/-- The state before the bootstrap of database 1: empty catalog, nothing staged,
counter at 1001. -/
def freshState : BootstrapState := ⟨emptyCatalog, emptyTxn, 1001⟩

end PgProcImpl

end noisepage.catalog.postgres

namespace noisepage.selfdriving

/-! ## Theorems: machine arithmetic of the child sum -/

namespace TreeNode

theorem intToUInt64_of_small (x : Nat) (h : x < 2147483648) : intToUInt64 x = x := by
  simp [intToUInt64, h]

theorem intAddAssign_of_small (acc c : Nat) (h : acc + c < 2147483648) :
    intAddAssign acc c = acc + c := by
  have h1 : acc < 2147483648 := by omega
  simp only [intAddAssign, uint64ToInt, intToUInt64, if_pos h1, pow64, pow32]
  omega

theorem foldl_intAddAssign_of_small (cs : List TreeNode) :
    ∀ acc : Nat, acc + exactCostSum cs < 2147483648 →
      cs.foldl (fun child_sum child => intAddAssign child_sum child.GetCost) acc
        = acc + exactCostSum cs := by
  induction cs with
  | nil => intro acc _; simp [exactCostSum]
  | cons c rest ih =>
    intro acc h
    have hsum : exactCostSum (c :: rest) = c.GetCost + exactCostSum rest := by
      simp [exactCostSum]
    rw [hsum] at h
    rw [List.foldl_cons, intAddAssign_of_small acc c.GetCost (by omega),
      ih (acc + c.GetCost) (by omega), hsum]
    omega

/-- While the children's costs sum to less than `2^31` the `int` accumulator
holds the exact sum. -/
theorem childSum_of_small (cs : List TreeNode) (h : exactCostSum cs < 2147483648) :
    childSum cs = exactCostSum cs := by
  have := foldl_intAddAssign_of_small cs 0 (by omega)
  simpa [childSum] using this

/-- While the children's costs sum to less than `2^31`, a node with at least one
child gets the truncated mean of the exact sum. -/
theorem ComputeCostFromChildren_of_small (on_zero : ZeroDivision) (n : TreeNode)
    (hk : 1 ≤ n.GetNumberOfChildren) (h : exactCostSum n.children_ < 2147483648) :
    n.ComputeCostFromChildren on_zero
      = Except.ok (exactCostSum n.children_ / n.GetNumberOfChildren) := by
  have hlen : ¬ n.children_.length = 0 := by
    simp only [GetNumberOfChildren] at hk; omega
  simp only [ComputeCostFromChildren, uint64Div, if_neg hlen, GetNumberOfChildren]
  rw [childSum_of_small _ h, intToUInt64_of_small _ h]

/-! ## Theorems: `ComputeCostFromChildren` -/

/-- C1: `ComputeCostFromChildren` is not the mean of the exact sum: on a node
whose single child has cost `2^32`, whose mean is `2^32`, the `int` accumulator
keeps the low 32 bits only and the method returns 0. -/
theorem ComputeCostFromChildren_loses_high_bits :
    (∀ on_zero : ZeroDivision,
        (rootOver [leafOfCost 4294967296] 0).ComputeCostFromChildren on_zero = Except.ok 0)
      ∧ exactCostSum (rootOver [leafOfCost 4294967296] 0).children_
          / (rootOver [leafOfCost 4294967296] 0).GetNumberOfChildren = 4294967296 := by
  constructor
  · intro on_zero
    rfl
  · rfl

/-- On a target whose division by zero leaves the quotient 0,
`ComputeCostFromChildren` on a leaf, which has zero children, is not rejected:
it returns the cost 0. -/
theorem ComputeCostFromChildren_no_children_returns_zero :
    (leafOfCost 7).GetNumberOfChildren = 0
      ∧ (leafOfCost 7).ComputeCostFromChildren zeroYielding = Except.ok 0 :=
  ⟨rfl, rfl⟩

/-- C2, amended: `ComputeCostFromChildren` has no check for zero children.  On a
node with zero children it reaches the division `0 / 0` in `uint64_t` and its
outcome is the one of that division on the target: no cost is returned exactly
when the division traps, and when the division leaves a quotient that quotient
is returned as the cost. -/
theorem ComputeCostFromChildren_no_children_unguarded (on_zero : ZeroDivision) (n : TreeNode)
    (h : n.GetNumberOfChildren = 0) :
    n.ComputeCostFromChildren on_zero = uint64Div on_zero 0 0
      ∧ (on_zero 0 = none →
          n.ComputeCostFromChildren on_zero = Except.error Fault.divideByZero)
      ∧ (∀ q, on_zero 0 = some q →
          n.ComputeCostFromChildren on_zero = Except.ok (q % pow64))
      ∧ ((∀ cost, n.ComputeCostFromChildren on_zero ≠ Except.ok cost) ↔ on_zero 0 = none) := by
  have hnil : n.children_ = [] := List.eq_nil_of_length_eq_zero h
  have hval : n.ComputeCostFromChildren on_zero = uint64Div on_zero 0 0 := by
    unfold ComputeCostFromChildren
    rw [hnil]
    rfl
  have hnone : on_zero 0 = none → uint64Div on_zero 0 0 = Except.error Fault.divideByZero := by
    intro h0
    simp only [uint64Div, if_true, h0]
  have hsome : ∀ q, on_zero 0 = some q → uint64Div on_zero 0 0 = Except.ok (q % pow64) := by
    intro q h0
    simp only [uint64Div, if_true, h0]
  refine ⟨hval, fun h0 => hval.trans (hnone h0), fun q h0 => hval.trans (hsome q h0), ?_⟩
  rw [hval]
  constructor
  · intro hno
    cases h0 : on_zero 0 with
    | none => rfl
    | some q => exact absurd (hsome q h0) (hno _)
  · intro h0 cost hc
    rw [hnone h0] at hc
    cases hc

theorem ComputeCostFromChildren_no_children_unguarded_witness :
    (leafOfCost 7).GetNumberOfChildren = 0
      ∧ (leafOfCost 7).ComputeCostFromChildren trapping = uint64Div trapping 0 0
      ∧ (trapping 0 = none →
          (leafOfCost 7).ComputeCostFromChildren trapping = Except.error Fault.divideByZero)
      ∧ (∀ q, trapping 0 = some q →
          (leafOfCost 7).ComputeCostFromChildren trapping = Except.ok (q % pow64))
      ∧ ((∀ cost, (leafOfCost 7).ComputeCostFromChildren trapping ≠ Except.ok cost)
          ↔ trapping 0 = none) :=
  ⟨rfl, ComputeCostFromChildren_no_children_unguarded trapping (leafOfCost 7) rfl⟩

/-! ## Theorems: `BestChild` -/

theorem bestChildScan_spec (cs : List TreeNode) :
    ∀ (pre : List TreeNode) (best best_cost : Nat),
      (∃ b, pre[best]? = some b ∧ b.GetCost = best_cost
        ∧ (∀ c ∈ pre, best_cost ≤ c.GetCost)
        ∧ ∀ j c, j < best → pre[j]? = some c → best_cost < c.GetCost) →
      IsFirstCheapest (pre ++ cs) (bestChildScan cs pre.length best best_cost) := by
  induction cs with
  | nil =>
    rintro pre best best_cost ⟨b, hb, hcost, hmin, hfirst⟩
    subst hcost
    simp only [bestChildScan, List.append_nil]
    exact ⟨b, hb, hmin, hfirst⟩
  | cons c rest ih =>
    rintro pre best best_cost ⟨b, hb, hcost, hmin, hfirst⟩
    have hbest : best < pre.length := by
      rcases Nat.lt_or_ge best pre.length with h | h
      · exact h
      · rw [List.getElem?_eq_none h] at hb; cases hb
    have happ : pre ++ c :: rest = (pre ++ [c]) ++ rest := by simp
    have hlen : pre.length + 1 = (pre ++ [c]).length := by simp
    simp only [bestChildScan]
    split
    · rename_i hlt
      rw [happ, hlen]
      apply ih (pre ++ [c]) pre.length c.GetCost
      refine ⟨c, by simp, rfl, ?_, ?_⟩
      · intro x hx
        rcases List.mem_append.mp hx with hx | hx
        · have := hmin x hx; omega
        · simp only [List.mem_singleton] at hx; subst hx; exact Nat.le_refl _
      · intro j x hj hx
        rw [List.getElem?_append_left hj] at hx
        have hxmem : x ∈ pre := List.getElem?_mem hx
        have := hmin x hxmem
        omega
    · rename_i hge
      rw [happ, hlen]
      apply ih (pre ++ [c]) best best_cost
      refine ⟨b, ?_, hcost, ?_, ?_⟩
      · rw [List.getElem?_append_left hbest]; exact hb
      · intro x hx
        rcases List.mem_append.mp hx with hx | hx
        · exact hmin x hx
        · simp only [List.mem_singleton] at hx; subst hx; omega
      · intro j x hj hx
        rw [List.getElem?_append_left (by omega)] at hx
        exact hfirst j x hj hx

/-- C9: for a node with at least one child, `BestChild` returns a child whose
cost is at most the cost of every child, and every child inserted before it
costs strictly more, so among the cheapest children it is the first. -/
theorem BestChild_first_cheapest (n : TreeNode) (h : 1 ≤ n.GetNumberOfChildren) :
    ∃ i b, n.BestChild = some i ∧ n.children_[i]? = some b
      ∧ (∀ c ∈ n.children_, b.GetCost ≤ c.GetCost)
      ∧ ∀ j c, j < i → n.children_[j]? = some c → b.GetCost < c.GetCost := by
  unfold BestChild GetNumberOfChildren at *
  cases hcs : n.children_ with
  | nil => rw [hcs] at h; simp at h
  | cons c cs =>
    have := bestChildScan_spec cs [c] 0 c.GetCost
      ⟨c, by simp, rfl, by simp, by intro j x hj; omega⟩
    obtain ⟨b, hb, hmin, hfirst⟩ := this
    exact ⟨_, b, rfl, hb, hmin, hfirst⟩

theorem BestChild_first_cheapest_witness :
    1 ≤ (rootOver [leafOfCost 10, leafOfCost 20, leafOfCost 5, leafOfCost 15] 0).GetNumberOfChildren
    ∧ (rootOver [leafOfCost 10, leafOfCost 20, leafOfCost 5, leafOfCost 15] 0).BestChild = some 2
    ∧ ((rootOver [leafOfCost 10, leafOfCost 20, leafOfCost 5, leafOfCost 15] 0).children_[2]?).map
        GetCost = some 5
    ∧ ∃ i b, (rootOver [leafOfCost 10, leafOfCost 20, leafOfCost 5, leafOfCost 15] 0).BestChild
          = some i
        ∧ (rootOver [leafOfCost 10, leafOfCost 20, leafOfCost 5, leafOfCost 15] 0).children_[i]?
          = some b
        ∧ (∀ c ∈ (rootOver [leafOfCost 10, leafOfCost 20, leafOfCost 5, leafOfCost 15] 0).children_,
            b.GetCost ≤ c.GetCost)
        ∧ ∀ j c, j < i →
            (rootOver [leafOfCost 10, leafOfCost 20, leafOfCost 5, leafOfCost 15] 0).children_[j]?
              = some c → b.GetCost < c.GetCost :=
  ⟨by decide, by decide, by decide,
    BestChild_first_cheapest
      (rootOver [leafOfCost 10, leafOfCost 20, leafOfCost 5, leafOfCost 15] 0) (by decide)⟩

/-! ## Theorems: `UpdateCostAndVisits` -/

end TreeNode

/-! ## Theorems: `GroupFeaturesByOU` -/

namespace PilotUtil

theorem groupTraversal_append {α : Type}
    (xs ys : List (Nat × Nat × ExecutionOperatingUnitFeature α)) :
    ∀ out : GroupOutput α, groupTraversal out (xs ++ ys)
      = match groupTraversal out xs with
        | Except.error thrown => Except.error thrown
        | Except.ok out1 => groupTraversal out1 ys := by
  induction xs with
  | nil => intro out; rfl
  | cons x rest ih =>
    intro out
    obtain ⟨q, p, f⟩ := x
    simp only [List.cons_append, groupTraversal]
    cases groupFeature q p out f with
    | error thrown => rfl
    | ok out1 => exact ih out1

theorem groupFeatures_eq_groupTraversal {α : Type} (query_id pipeline_id : Nat)
    (features : List (ExecutionOperatingUnitFeature α)) :
    ∀ out : GroupOutput α, groupFeatures query_id pipeline_id out features
      = groupTraversal out (features.map (fun ou_it => (query_id, pipeline_id, ou_it))) := by
  induction features with
  | nil => intro out; rfl
  | cons f rest ih =>
    intro out
    simp only [groupFeatures, List.map_cons, groupTraversal]
    cases groupFeature query_id pipeline_id out f with
    | error thrown => rfl
    | ok out1 => exact ih out1

/-- `GroupFeaturesByOU` is the loop body run over the traversal of the
records. -/
theorem GroupFeaturesByOU_eq_groupTraversal {α : Type} (records : List (PipelineData α)) :
    ∀ out : GroupOutput α, GroupFeaturesByOU out records = groupTraversal out (traversal records) := by
  induction records with
  | nil => intro out; rfl
  | cons r rest ih =>
    intro out
    have htr : traversal (r :: rest)
        = r.features_.map (fun ou_it => (r.query_id_, r.pipeline_id_, ou_it)) ++ traversal rest := by
      simp [traversal]
    rw [htr, groupTraversal_append, ← groupFeatures_eq_groupTraversal]
    simp only [GroupFeaturesByOU]
    cases groupFeatures r.query_id_ r.pipeline_id_ out r.features_ with
    | error thrown => rfl
    | ok out1 => exact ih out1

theorem find_pushBack_same {α : Type} (type : Nat) (attrs : α) :
    ∀ m : OUFeatureMap α, OUFeatureMap.find (OUFeatureMap.pushBack m type attrs) type
      = (OUFeatureMap.find m type).map (fun batch => batch ++ [attrs]) := by
  intro m
  induction m with
  | nil => rfl
  | cons e rest ih =>
    obtain ⟨k, v⟩ := e
    by_cases hk : k = type
    · simp [OUFeatureMap.pushBack, OUFeatureMap.find, hk]
    · simp [OUFeatureMap.pushBack, OUFeatureMap.find, hk, ih]

theorem find_pushBack_other {α : Type} (type other : Nat) (attrs : α) (h : other ≠ type) :
    ∀ m : OUFeatureMap α, OUFeatureMap.find (OUFeatureMap.pushBack m type attrs) other
      = OUFeatureMap.find m other := by
  intro m
  induction m with
  | nil => rfl
  | cons e rest ih =>
    obtain ⟨k, v⟩ := e
    by_cases hk : k = type
    · subst hk
      have hne : ¬ k = other := fun hko => h hko.symm
      simp [OUFeatureMap.pushBack, OUFeatureMap.find, hne]
    · by_cases hko : k = other
      · subst hko
        simp [OUFeatureMap.pushBack, OUFeatureMap.find, hk]
      · simp [OUFeatureMap.pushBack, OUFeatureMap.find, hk, hko, ih]

/-- On a map that holds a batch for the feature's type, the loop body appends
the tuple with the batch size as position and then the attribute vector to the
batch. -/
theorem groupFeature_of_batch {α : Type} (query_id pipeline_id : Nat) (out : GroupOutput α)
    (ou_it : ExecutionOperatingUnitFeature α) (batch : List α)
    (h : out.ou_to_features.find ou_it.type_ = some batch) :
    groupFeature query_id pipeline_id out ou_it
      = Except.ok ⟨out.pipeline_to_ou_position ++ [(query_id, pipeline_id, batch.length)],
          out.ou_to_features.pushBack ou_it.type_ ou_it.attributes_⟩ := by
  simp [groupFeature, h]

/-- On a map without a batch for the feature's type, the loop body appends the
tuple with position 0 and throws, the map unchanged. -/
theorem groupFeature_of_no_batch {α : Type} (query_id pipeline_id : Nat) (out : GroupOutput α)
    (ou_it : ExecutionOperatingUnitFeature α)
    (h : out.ou_to_features.find ou_it.type_ = none) :
    groupFeature query_id pipeline_id out ou_it
      = Except.error ⟨out.pipeline_to_ou_position ++ [(query_id, pipeline_id, 0)],
          out.ou_to_features⟩ := by
  simp [groupFeature, h]

theorem groupTraversal_of_batches {α : Type}
    (flat : List (Nat × Nat × ExecutionOperatingUnitFeature α)) :
    ∀ out : GroupOutput α,
      (∀ x ∈ flat, ∃ batch, out.ou_to_features.find x.2.2.type_ = some batch) →
      ∃ out1 tuples, groupTraversal out flat = Except.ok out1
        ∧ out1.pipeline_to_ou_position = out.pipeline_to_ou_position ++ tuples
        ∧ tuples.length = flat.length
        ∧ (∀ type batch, out.ou_to_features.find type = some batch →
            out1.ou_to_features.find type = some (batch ++ attributesOfType type flat))
        ∧ (∀ (i q p : Nat) (f : ExecutionOperatingUnitFeature α), flat[i]? = some (q, p, f) →
            ∃ pos batch, tuples[i]? = some (q, p, pos)
              ∧ out1.ou_to_features.find f.type_ = some batch
              ∧ batch[pos]? = some f.attributes_) := by
  induction flat with
  | nil =>
    intro out _
    refine ⟨out, [], rfl, by simp, rfl, ?_, ?_⟩
    · intro type batch h; simp [attributesOfType, h]
    · intro i q p f h; simp at h
  | cons x rest ih =>
    intro out hkeys
    obtain ⟨q0, p0, f0⟩ := x
    obtain ⟨b0, hb0⟩ := hkeys (q0, p0, f0) (List.mem_cons_self _ _)
    have hstep := groupFeature_of_batch q0 p0 out f0 b0 hb0
    have hfind1 : ∀ type batch, out.ou_to_features.find type = some batch →
        OUFeatureMap.find (out.ou_to_features.pushBack f0.type_ f0.attributes_) type
          = some (batch ++ attributesOfType type [(q0, p0, f0)]) := by
      intro type batch h
      by_cases ht : type = f0.type_
      · subst ht
        rw [find_pushBack_same, h]
        simp [attributesOfType]
      · rw [find_pushBack_other _ _ _ ht, h]
        have : ¬ f0.type_ = type := fun h2 => ht h2.symm
        simp [attributesOfType, this]
    have hkeys1 : ∀ x ∈ rest, ∃ batch,
        OUFeatureMap.find (out.ou_to_features.pushBack f0.type_ f0.attributes_) x.2.2.type_
          = some batch := by
      intro x hx
      obtain ⟨b, hb⟩ := hkeys x (List.mem_cons_of_mem _ hx)
      exact ⟨_, hfind1 _ b hb⟩
    obtain ⟨out1, tuples, hrun, hpos, hlen, hbatches, hidx⟩ :=
      ih ⟨out.pipeline_to_ou_position ++ [(q0, p0, b0.length)],
          out.ou_to_features.pushBack f0.type_ f0.attributes_⟩ hkeys1
    refine ⟨out1, (q0, p0, b0.length) :: tuples, ?_, ?_, ?_, ?_, ?_⟩
    · simp only [groupTraversal, hstep]
      exact hrun
    · rw [hpos]; simp
    · simp [hlen]
    · intro type batch h
      have h1 := hbatches type _ (hfind1 type batch h)
      rw [h1]
      have : attributesOfType type ((q0, p0, f0) :: rest)
          = attributesOfType type [(q0, p0, f0)] ++ attributesOfType type rest := by
        simp only [attributesOfType]
        rw [← List.map_append, ← List.filter_append]
        rfl
      rw [this, List.append_assoc]
    · intro i q p f hget
      cases i with
      | zero =>
        simp only [List.getElem?_cons_zero, Option.some.injEq, Prod.mk.injEq] at hget
        obtain ⟨hq, hp, hf⟩ := hget
        subst hq hp hf
        have h1 := hbatches _ _ (hfind1 _ b0 hb0)
        refine ⟨b0.length, _, by simp, h1, ?_⟩
        have h2 : attributesOfType f0.type_ [(q0, p0, f0)] = [f0.attributes_] := by
          simp [attributesOfType]
        show (b0 ++ attributesOfType f0.type_ [(q0, p0, f0)]
          ++ attributesOfType f0.type_ rest)[b0.length]? = some f0.attributes_
        rw [h2, List.append_assoc, List.getElem?_append_right (Nat.le_refl _)]
        simp
      | succ k =>
        obtain ⟨pos, batch, htup, hfind, hat⟩ := hidx k q p f (by simpa using hget)
        exact ⟨pos, batch, by simpa using htup, hfind, hat⟩

/-- When every operating-unit type that occurs already has a batch,
`GroupFeaturesByOU` returns normally: it appends one tuple per feature in
traversal order, the position of each tuple indexes that feature's attribute
vector in the batch of its type, and every batch grows by the attribute vectors
of its type in traversal order. -/
theorem GroupFeaturesByOU_of_batches {α : Type} (out : GroupOutput α)
    (records : List (PipelineData α))
    (h : ∀ x ∈ traversal records, ∃ batch, out.ou_to_features.find x.2.2.type_ = some batch) :
    ∃ out1 tuples, GroupFeaturesByOU out records = Except.ok out1
      ∧ out1.pipeline_to_ou_position = out.pipeline_to_ou_position ++ tuples
      ∧ tuples.length = (traversal records).length
      ∧ (∀ type batch, out.ou_to_features.find type = some batch →
          out1.ou_to_features.find type
            = some (batch ++ attributesOfType type (traversal records)))
      ∧ (∀ (i q p : Nat) (f : ExecutionOperatingUnitFeature α),
          (traversal records)[i]? = some (q, p, f) →
          ∃ pos batch, tuples[i]? = some (q, p, pos)
            ∧ out1.ou_to_features.find f.type_ = some batch
            ∧ batch[pos]? = some f.attributes_) := by
  rw [GroupFeaturesByOU_eq_groupTraversal]
  exact groupTraversal_of_batches (traversal records) out h

/-- C3: started with an empty `ou_to_features` map, `GroupFeaturesByOU` builds no
batch at all: at the first operating-unit feature of the records it appends the
tuple with position 0 and then leaves by `std::out_of_range` from `at()`, the
map still empty. -/
theorem GroupFeaturesByOU_empty_map_throws {α : Type} (positions : List (Nat × Nat × Nat))
    (records : List (PipelineData α)) (query_id pipeline_id : Nat)
    (ou_it : ExecutionOperatingUnitFeature α)
    (rest : List (Nat × Nat × ExecutionOperatingUnitFeature α))
    (h : traversal records = (query_id, pipeline_id, ou_it) :: rest) :
    GroupFeaturesByOU ⟨positions, []⟩ records
      = Except.error ⟨positions ++ [(query_id, pipeline_id, 0)], []⟩ := by
  rw [GroupFeaturesByOU_eq_groupTraversal, h]
  simp only [groupTraversal]
  rw [groupFeature_of_no_batch query_id pipeline_id ⟨positions, []⟩ ou_it rfl]

theorem GroupFeaturesByOU_empty_map_throws_witness :
    traversal ([⟨1, 1, [⟨3, 70⟩]⟩] : List (PipelineData Nat)) = [(1, 1, ⟨3, 70⟩)]
    ∧ GroupFeaturesByOU (⟨[], []⟩ : GroupOutput Nat) [⟨1, 1, [⟨3, 70⟩]⟩]
        = Except.error ⟨[(1, 1, 0)], []⟩ :=
  ⟨rfl, GroupFeaturesByOU_empty_map_throws [] [⟨1, 1, [⟨3, 70⟩]⟩] 1 1 ⟨3, 70⟩ [] rfl⟩

/-- C4: `GroupFeaturesByOU` does not append one tuple per feature.  Started with
empty outputs on the record `(1, 1, [type 3, type 4])` it appends the single
tuple `(1, 1, 0)` and throws, and no batch exists that position 0 could index.
Started with a batch for type 3 only, on the records `(1, 1, [type 3, type 4])`
and `(2, 1, [type 3])`, it throws at the feature of type 4 after two tuples for
three features, the second tuple naming a position in a batch that does not
exist. -/
theorem GroupFeaturesByOU_missing_type_throws :
    (GroupFeaturesByOU (⟨[], []⟩ : GroupOutput Nat) [⟨1, 1, [⟨3, 70⟩, ⟨4, 80⟩]⟩]
        = Except.error ⟨[(1, 1, 0)], []⟩
      ∧ OUFeatureMap.find ([] : OUFeatureMap Nat) 3 = none)
    ∧ (GroupFeaturesByOU (⟨[], [(3, [])]⟩ : GroupOutput Nat)
          [⟨1, 1, [⟨3, 70⟩, ⟨4, 80⟩]⟩, ⟨2, 1, [⟨3, 90⟩]⟩]
        = Except.error ⟨[(1, 1, 0), (1, 1, 0)], [(3, [70])]⟩
      ∧ OUFeatureMap.find ([(3, [70])] : OUFeatureMap Nat) 4 = none) := by
  refine ⟨⟨?_, ?_⟩, ?_, ?_⟩ <;> rfl

/-! ## Theorems: `CollectPipelineFeatures` -/

theorem replayLoop_log_mono {β : Type} (engine : Nat → Nat → β → Option ReplayError) :
    ∀ (pairs : List (Nat × β)) (next : Nat) (log : List TxnEvent) (ev : TxnEvent),
      ev ∈ log → ev ∈ (replayLoop engine pairs next log).1 := by
  intro pairs
  induction pairs with
  | nil => intro next log ev h; simpa [replayLoop] using h
  | cons pr rest ih =>
    intro next log ev h
    obtain ⟨qid, params⟩ := pr
    cases hE : engine next qid params with
    | some e => simp [replayLoop, hE, h]
    | none =>
      simp only [replayLoop, hE]
      exact ih _ _ _ (List.mem_append_left _ h)

theorem replayLoop_no_commit {β : Type} (engine : Nat → Nat → β → Option ReplayError) :
    ∀ (pairs : List (Nat × β)) (next : Nat) (log : List TxnEvent) (t : Nat),
      TxnEvent.commit_ t ∈ (replayLoop engine pairs next log).1 → TxnEvent.commit_ t ∈ log := by
  intro pairs
  induction pairs with
  | nil => intro next log t h; simpa [replayLoop] using h
  | cons pr rest ih =>
    intro next log t h
    obtain ⟨qid, params⟩ := pr
    cases hE : engine next qid params with
    | some e => simpa [replayLoop, hE] using h
    | none =>
      simp only [replayLoop, hE] at h
      have := ih _ _ _ h
      simpa using this

theorem replayLoop_begin {β : Type} (engine : Nat → Nat → β → Option ReplayError) :
    ∀ (pairs : List (Nat × β)) (next : Nat) (log : List TxnEvent) (t : Nat),
      TxnEvent.begin_ t ∈ (replayLoop engine pairs next log).1 →
      TxnEvent.begin_ t ∈ log ∨
        (next ≤ t ∧ ∃ qid params, pairs[t - next]? = some (qid, params) ∧
          (engine t qid params = none →
            TxnEvent.abort_ t ∈ (replayLoop engine pairs next log).1)) := by
  intro pairs
  induction pairs with
  | nil => intro next log t h; left; simpa [replayLoop] using h
  | cons pr rest ih =>
    intro next log t h
    obtain ⟨qid, params⟩ := pr
    cases hE : engine next qid params with
    | some e =>
      simp only [replayLoop, hE, List.mem_append, List.mem_singleton, TxnEvent.begin_.injEq] at h
      rcases h with h | h
      · left; exact h
      · right
        subst h
        refine ⟨Nat.le_refl _, qid, params, by simp, ?_⟩
        intro hnone
        rw [hE] at hnone
        cases hnone
    | none =>
      simp only [replayLoop, hE] at h ⊢
      rcases ih _ _ _ h with h1 | ⟨hle, q, p, hget, himp⟩
      · simp only [List.mem_append, List.mem_cons, TxnEvent.begin_.injEq, List.mem_singleton,
          reduceCtorEq, or_false, List.not_mem_nil] at h1
        rcases h1 with h1 | h1
        · left; exact h1
        · right
          subst h1
          refine ⟨Nat.le_refl _, qid, params, by simp, ?_⟩
          intro _
          exact replayLoop_log_mono engine _ _ _ _ (by simp)
      · right
        refine ⟨by omega, q, p, ?_, himp⟩
        have hidx : t - next = (t - (next + 1)) + 1 := by omega
        rw [hidx, List.getElem?_cons_succ]
        exact hget

theorem replayLoop_abort {β : Type} (engine : Nat → Nat → β → Option ReplayError) :
    ∀ (pairs : List (Nat × β)) (next : Nat) (log : List TxnEvent) (t : Nat),
      TxnEvent.abort_ t ∈ (replayLoop engine pairs next log).1 →
      TxnEvent.abort_ t ∈ log ∨
        (next ≤ t ∧ ∃ qid params, pairs[t - next]? = some (qid, params) ∧
          engine t qid params = none) := by
  intro pairs
  induction pairs with
  | nil => intro next log t h; left; simpa [replayLoop] using h
  | cons pr rest ih =>
    intro next log t h
    obtain ⟨qid, params⟩ := pr
    cases hE : engine next qid params with
    | some e =>
      simp only [replayLoop, hE, List.mem_append, List.mem_singleton, reduceCtorEq,
        or_false] at h
      left; exact h
    | none =>
      simp only [replayLoop, hE] at h
      rcases ih _ _ _ h with h1 | ⟨hle, q, p, hget, hnone⟩
      · simp only [List.mem_append, List.mem_cons, TxnEvent.abort_.injEq, List.mem_singleton,
          reduceCtorEq, false_or, List.not_mem_nil, or_false] at h1
        rcases h1 with h1 | h1
        · left; exact h1
        · right
          subst h1
          exact ⟨Nat.le_refl _, qid, params, by simp, hE⟩
      · right
        refine ⟨by omega, q, p, ?_, hnone⟩
        have hidx : t - next = (t - (next + 1)) + 1 := by omega
        rw [hidx, List.getElem?_cons_succ]
        exact hget

theorem replayLoop_first_failure {β : Type} (engine : Nat → Nat → β → Option ReplayError) :
    ∀ (pairs : List (Nat × β)) (next : Nat) (log : List TxnEvent) (i : Nat)
      (qid : Nat) (params : β) (e : ReplayError),
      pairs[i]? = some (qid, params) → engine (next + i) qid params = some e →
      (∀ j q p, j < i → pairs[j]? = some (q, p) → engine (next + j) q p = none) →
      (replayLoop engine pairs next log).2 = some e := by
  intro pairs
  induction pairs with
  | nil => intro next log i qid params e h; simp at h
  | cons pr rest ih =>
    intro next log i qid params e hget hfail hfirst
    obtain ⟨q0, p0⟩ := pr
    cases i with
    | zero =>
      simp only [List.getElem?_cons_zero, Option.some.injEq, Prod.mk.injEq] at hget
      obtain ⟨rfl, rfl⟩ := hget
      simp only [Nat.add_zero] at hfail
      simp [replayLoop, hfail]
    | succ k =>
      have h0 : engine next q0 p0 = none := by
        have := hfirst 0 q0 p0 (Nat.succ_pos k) (by simp)
        simpa using this
      simp only [replayLoop, h0]
      apply ih (next + 1) _ k qid params e
      · simpa using hget
      · have : next + 1 + k = next + (k + 1) := by omega
        rw [this]; exact hfail
      · intro j q p hj hgj
        have : next + 1 + j = next + (j + 1) := by omega
        rw [this]
        exact hfirst (j + 1) q p (by omega) (by simpa using hgj)

theorem replayLoop_some_failure {β : Type} (engine : Nat → Nat → β → Option ReplayError) :
    ∀ (pairs : List (Nat × β)) (next : Nat) (log : List TxnEvent) (i : Nat)
      (qid : Nat) (params : β) (e : ReplayError),
      pairs[i]? = some (qid, params) → engine (next + i) qid params = some e →
      ∃ e1, (replayLoop engine pairs next log).2 = some e1 := by
  intro pairs
  induction pairs with
  | nil => intro next log i qid params e h; simp at h
  | cons pr rest ih =>
    intro next log i qid params e hget hfail
    obtain ⟨q0, p0⟩ := pr
    cases hE : engine next q0 p0 with
    | some e0 => exact ⟨e0, by simp [replayLoop, hE]⟩
    | none =>
      cases i with
      | zero =>
        simp only [List.getElem?_cons_zero, Option.some.injEq, Prod.mk.injEq] at hget
        obtain ⟨rfl, rfl⟩ := hget
        simp only [Nat.add_zero] at hfail
        rw [hE] at hfail
        cases hfail
      | succ k =>
        simp only [replayLoop, hE]
        apply ih (next + 1) _ k qid params e
        · simpa using hget
        · have : next + 1 + k = next + (k + 1) := by omega
          rw [this]; exact hfail

theorem CollectPipelineFeatures_log {β ρ : Type} (engine : Nat → Nat → β → Option ReplayError)
    (f : List (Nat × List β)) (aggregated : List ρ) (asserts : Bool) :
    (CollectPipelineFeatures engine f aggregated asserts).txn_log
      = (replayLoop engine (replayPairs f) 0 []).1 := by
  unfold CollectPipelineFeatures
  rcases hL : replayLoop engine (replayPairs f) 0 [] with ⟨log, r⟩
  cases r with
  | some e => rfl
  | none =>
    simp only
    split <;> rfl

theorem CollectPipelineFeatures_thrown {β ρ : Type} (engine : Nat → Nat → β → Option ReplayError)
    (f : List (Nat × List β)) (aggregated : List ρ) (asserts : Bool) (e : ReplayError)
    (h : (replayLoop engine (replayPairs f) 0 []).2 = some e) :
    (CollectPipelineFeatures engine f aggregated asserts).result = CollectResult.thrown e := by
  unfold CollectPipelineFeatures
  rcases hL : replayLoop engine (replayPairs f) 0 [] with ⟨log, r⟩
  rw [hL] at h
  simp only at h
  subst h
  rfl

/-- C5, as stated, fails: when the bind step of the second pair throws, the
transaction begun for that pair is never aborted. -/
theorem CollectPipelineFeatures_leaves_failed_txn :
    ¬ ∀ t : Nat,
      TxnEvent.begin_ t ∈
          (@CollectPipelineFeatures Nat Nat (bindFailsAt 1) threeBindings [] false).txn_log →
        TxnEvent.abort_ t ∈
            (@CollectPipelineFeatures Nat Nat (bindFailsAt 1) threeBindings [] false).txn_log
          ∧ TxnEvent.commit_ t ∉
            (@CollectPipelineFeatures Nat Nat (bindFailsAt 1) threeBindings [] false).txn_log := by
  intro h
  have h1 := (h 1 (by decide)).1
  revert h1
  decide

/-- C5, amended: `CollectPipelineFeatures` never commits a transaction; it
begins transactions only for pairs of the forecast; the transaction begun for a
pair whose parse, bind, optimize, compile and run steps all succeed is aborted;
and the transaction of a pair one of whose steps throws is not aborted. -/
theorem CollectPipelineFeatures_txn_discipline {β ρ : Type}
    (engine : Nat → Nat → β → Option ReplayError) (f : List (Nat × List β))
    (aggregated : List ρ) (asserts : Bool) :
    (∀ t, TxnEvent.commit_ t ∉ (CollectPipelineFeatures engine f aggregated asserts).txn_log)
    ∧ (∀ t, TxnEvent.begin_ t ∈ (CollectPipelineFeatures engine f aggregated asserts).txn_log →
        ∃ qid params, (replayPairs f)[t]? = some (qid, params))
    ∧ (∀ t qid params, (replayPairs f)[t]? = some (qid, params) →
        engine t qid params = none →
        TxnEvent.begin_ t ∈ (CollectPipelineFeatures engine f aggregated asserts).txn_log →
        TxnEvent.abort_ t ∈ (CollectPipelineFeatures engine f aggregated asserts).txn_log)
    ∧ (∀ t qid params e, (replayPairs f)[t]? = some (qid, params) →
        engine t qid params = some e →
        TxnEvent.abort_ t ∉ (CollectPipelineFeatures engine f aggregated asserts).txn_log) := by
  rw [CollectPipelineFeatures_log]
  refine ⟨?_, ?_, ?_, ?_⟩
  · intro t h
    have := replayLoop_no_commit engine _ _ _ _ h
    simp at this
  · intro t h
    rcases replayLoop_begin engine _ _ _ _ h with h1 | ⟨_, q, p, hget, _⟩
    · simp at h1
    · exact ⟨q, p, by simpa using hget⟩
  · intro t qid params hget hnone h
    rcases replayLoop_begin engine _ _ _ _ h with h1 | ⟨_, q, p, hget1, himp⟩
    · simp at h1
    · simp only [Nat.sub_zero] at hget1
      rw [hget] at hget1
      simp only [Option.some.injEq, Prod.mk.injEq] at hget1
      obtain ⟨rfl, rfl⟩ := hget1
      exact himp hnone
  · intro t qid params e hget hfail h
    rcases replayLoop_abort engine _ _ _ _ h with h1 | ⟨_, q, p, hget1, hnone⟩
    · simp at h1
    · simp only [Nat.sub_zero] at hget1
      rw [hget] at hget1
      simp only [Option.some.injEq, Prod.mk.injEq] at hget1
      obtain ⟨rfl, rfl⟩ := hget1
      rw [hfail] at hnone
      cases hnone

theorem CollectPipelineFeatures_txn_discipline_witness :
    TxnEvent.begin_ 0 ∈
        (@CollectPipelineFeatures Nat Nat (bindFailsAt 1) threeBindings [] false).txn_log
    ∧ TxnEvent.abort_ 0 ∈
        (@CollectPipelineFeatures Nat Nat (bindFailsAt 1) threeBindings [] false).txn_log
    ∧ TxnEvent.abort_ 1 ∉
        (@CollectPipelineFeatures Nat Nat (bindFailsAt 1) threeBindings [] false).txn_log :=
  ⟨by decide,
    (@CollectPipelineFeatures_txn_discipline Nat Nat (bindFailsAt 1) threeBindings [] false).2.2.1
      0 1 10 (by decide) (by decide) (by decide),
    (@CollectPipelineFeatures_txn_discipline Nat Nat (bindFailsAt 1) threeBindings [] false).2.2.2
      1 1 11 ⟨ReplayStep.bind, 7⟩ (by decide) (by decide)⟩

/-- C6: if a step (in particular bind or optimize) throws for a pair of the
forecast, `CollectPipelineFeatures` ends by an exception and returns no feature
records; when the pairs before it all succeed, so that the pair is reached, the
exception is the one thrown for that pair and no later pair is replayed. -/
theorem CollectPipelineFeatures_fails_as_a_whole {β ρ : Type}
    (engine : Nat → Nat → β → Option ReplayError) (f : List (Nat × List β))
    (aggregated : List ρ) (asserts : Bool) (t qid : Nat) (params : β) (e : ReplayError)
    (hpair : (replayPairs f)[t]? = some (qid, params))
    (hfail : engine t qid params = some e) :
    (∃ e1, (CollectPipelineFeatures engine f aggregated asserts).result
        = CollectResult.thrown e1)
    ∧ (∀ records, (CollectPipelineFeatures engine f aggregated asserts).result
        ≠ CollectResult.returned records)
    ∧ ((∀ j q p, j < t → (replayPairs f)[j]? = some (q, p) → engine j q p = none) →
        (CollectPipelineFeatures engine f aggregated asserts).result = CollectResult.thrown e) := by
  have hsome : ∃ e1, (replayLoop engine (replayPairs f) 0 []).2 = some e1 :=
    replayLoop_some_failure engine _ 0 [] t qid params e hpair (by simpa using hfail)
  obtain ⟨e1, he1⟩ := hsome
  have hres := CollectPipelineFeatures_thrown engine f aggregated asserts e1 he1
  refine ⟨⟨e1, hres⟩, ?_, ?_⟩
  · intro records hr
    rw [hres] at hr
    cases hr
  · intro hfirst
    apply CollectPipelineFeatures_thrown
    apply replayLoop_first_failure engine _ 0 [] t qid params e hpair (by simpa using hfail)
    intro j q p hj hget
    simpa using hfirst j q p hj hget

theorem CollectPipelineFeatures_fails_as_a_whole_witness :
    (replayPairs threeBindings)[1]? = some (1, 11)
    ∧ bindFailsAt 1 1 1 11 = some ⟨ReplayStep.bind, 7⟩
    ∧ (@CollectPipelineFeatures Nat Nat (bindFailsAt 1) threeBindings [] false).result
        = CollectResult.thrown ⟨ReplayStep.bind, 7⟩ :=
  ⟨by decide, by decide,
    (@CollectPipelineFeatures_fails_as_a_whole Nat Nat (bindFailsAt 1) threeBindings [] false
      1 1 11 ⟨ReplayStep.bind, 7⟩ (by decide) (by decide)).2.2
      (by
        intro j q p hj hget
        have hj0 : j = 0 := by omega
        subst hj0
        rfl)⟩

end PilotUtil

/-! ## Theorems: segmentation of the workload forecast -/

namespace WorkloadForecast

theorem minTimestamp_le (trace : List (Nat × Nat)) :
    ∀ e ∈ trace, minTimestamp trace ≤ e.1 := by
  induction trace with
  | nil => intro e h; simp at h
  | cons a rest ih =>
    intro e h
    cases rest with
    | nil =>
      simp only [List.mem_singleton] at h
      subst h
      simp [minTimestamp]
    | cons b rest2 =>
      simp only [minTimestamp]
      rcases List.mem_cons.mp h with h | h
      · subst h; exact Nat.min_le_left _ _
      · exact Nat.le_trans (Nat.min_le_right _ _) (ih e h)

theorem le_maxTimestamp (trace : List (Nat × Nat)) :
    ∀ e ∈ trace, e.1 ≤ maxTimestamp trace := by
  induction trace with
  | nil => intro e h; simp at h
  | cons a rest ih =>
    intro e h
    simp only [maxTimestamp]
    rcases List.mem_cons.mp h with h | h
    · subst h; exact Nat.le_max_left _ _
    · exact Nat.le_trans (ih e h) (Nat.le_max_right _ _)

theorem segmentCount_covers (d interval : Nat) (h : 0 < interval) :
    d ≤ (d + interval - 1) / interval * interval := by
  have h1 := Nat.div_add_mod (d + interval - 1) interval
  have h2 := Nat.mod_lt (d + interval - 1) h
  have h3 : interval * ((d + interval - 1) / interval) = (d + interval - 1) / interval * interval :=
    Nat.mul_comm _ _
  omega

theorem segmentCount_least (d interval m : Nat) (h : 0 < interval) (hm : d ≤ m * interval) :
    (d + interval - 1) / interval ≤ m := by
  have : (d + interval - 1) / interval < m + 1 := by
    rw [Nat.div_lt_iff_lt_mul h]
    have : (m + 1) * interval = m * interval + interval := by ring
    omega
  omega

theorem segmentCount_eq_ceil (min_ts max_ts interval : Nat) (h : 0 < interval) :
    segmentCount min_ts max_ts interval
      = ⌈((max_ts - min_ts : Nat) : ℚ) / (interval : ℚ)⌉₊ := by
  have hI : (0 : ℚ) < (interval : ℚ) := by exact_mod_cast h
  apply le_antisymm
  · apply segmentCount_least _ _ _ h
    have h1 := Nat.le_ceil (((max_ts - min_ts : Nat) : ℚ) / (interval : ℚ))
    rw [div_le_iff₀ hI] at h1
    exact_mod_cast h1
  · rw [Nat.ceil_le, div_le_iff₀ hI]
    have := segmentCount_covers (max_ts - min_ts) interval h
    unfold segmentCount
    exact_mod_cast this


theorem CreateSegments_segments (wf : WorkloadForecast) :
    (CreateSegments wf).forecast_segments_
      = (List.range (segmentCount (minTimestamp wf.query_timestamp_to_id_)
            (maxTimestamp wf.query_timestamp_to_id_) wf.forecast_interval_)).map
          (segmentEvents wf.query_timestamp_to_id_ (minTimestamp wf.query_timestamp_to_id_)
            wf.forecast_interval_) := rfl

theorem CreateSegments_count (wf : WorkloadForecast) :
    (CreateSegments wf).GetNumberOfSegments
      = segmentCount (minTimestamp wf.query_timestamp_to_id_)
          (maxTimestamp wf.query_timestamp_to_id_) wf.forecast_interval_ := by
  simp [CreateSegments, GetNumberOfSegments]

theorem segmentIndex_lt_count_iff (min_ts max_ts interval t : Nat) (h : 0 < interval)
    (hmin : min_ts ≤ t) (hmax : t ≤ max_ts) :
    segmentIndex min_ts interval t < segmentCount min_ts max_ts interval
      ↔ ¬ (t = max_ts ∧ interval ∣ (max_ts - min_ts)) := by
  unfold segmentIndex segmentCount
  have hcov := segmentCount_covers (max_ts - min_ts) interval h
  constructor
  · rintro hlt ⟨rfl, q, hq⟩
    have hle : (t - min_ts + interval - 1) / interval ≤ q :=
      segmentCount_least _ _ q h (by rw [hq, Nat.mul_comm])
    have hq2 : (t - min_ts) / interval = q := by
      rw [hq]; exact Nat.mul_div_cancel_left q h
    omega
  · intro hnot
    rw [Nat.div_lt_iff_lt_mul h]
    by_cases ht : t = max_ts
    · subst ht
      have hnd : ¬ interval ∣ (t - min_ts) := fun hd => hnot ⟨rfl, hd⟩
      rcases Nat.lt_or_ge (t - min_ts) ((t - min_ts + interval - 1) / interval * interval) with hlt | hge
      · exact hlt
      · exact absurd (Dvd.intro_left _ (Nat.le_antisymm hge hcov)) hnd
    · omega

/-- C7: after `CreateSegments` with a positive interval, `GetNumberOfSegments`
returns the number of segments built, and that number is
`ceil((max_ts - min_ts) / interval)`. -/
theorem GetNumberOfSegments_after_CreateSegments (wf : WorkloadForecast)
    (h : 0 < wf.forecast_interval_) :
    (CreateSegments wf).GetNumberOfSegments = (CreateSegments wf).forecast_segments_.length
      ∧ (CreateSegments wf).GetNumberOfSegments
          = ⌈((maxTimestamp wf.query_timestamp_to_id_
                - minTimestamp wf.query_timestamp_to_id_ : Nat) : ℚ)
              / (wf.forecast_interval_ : ℚ)⌉₊ := by
  constructor
  · simp [CreateSegments, GetNumberOfSegments]
  · rw [CreateSegments_count]
    exact segmentCount_eq_ceil _ _ _ h

theorem GetNumberOfSegments_after_CreateSegments_witness :
    0 < (loaded scenarioTrace 50).forecast_interval_
      ∧ (CreateSegments (loaded scenarioTrace 50)).GetNumberOfSegments = 2
      ∧ (CreateSegments (loaded scenarioTrace 50)).GetNumberOfSegments
          = (CreateSegments (loaded scenarioTrace 50)).forecast_segments_.length
      ∧ (CreateSegments (loaded scenarioTrace 50)).GetNumberOfSegments
          = ⌈((maxTimestamp (loaded scenarioTrace 50).query_timestamp_to_id_
                - minTimestamp (loaded scenarioTrace 50).query_timestamp_to_id_ : Nat) : ℚ)
              / ((loaded scenarioTrace 50).forecast_interval_ : ℚ)⌉₊ :=
  ⟨by decide, by decide,
    GetNumberOfSegments_after_CreateSegments (loaded scenarioTrace 50) (by decide)⟩

/-- C8, as stated, fails: in the trace with timestamps 0 and 50 and interval 50
the event at 50 has segment index 1, the segment count is 1, and no segment
built holds the event. -/
theorem last_event_outside_segments :
    ((50, 1) : Nat × Nat) ∈ (loaded [(0, 1), (50, 1)] 50).query_timestamp_to_id_
      ∧ segmentIndex (minTimestamp [(0, 1), (50, 1)]) 50 50 = 1
      ∧ (CreateSegments (loaded [(0, 1), (50, 1)] 50)).GetNumberOfSegments = 1
      ∧ ∀ s ∈ (CreateSegments (loaded [(0, 1), (50, 1)] 50)).forecast_segments_,
          ((50, 1) : Nat × Nat) ∉ s := by
  decide

/-- Every trace event lies in at most one segment, the one with index
`floor((t - min_ts) / interval)`, and it lies in that segment exactly when the
index is smaller than the segment count. -/
theorem event_in_segment_iff (wf : WorkloadForecast) (e : Nat × Nat)
    (he : e ∈ wf.query_timestamp_to_id_) (i : Nat) :
    (∃ s, (CreateSegments wf).forecast_segments_[i]? = some s ∧ e ∈ s)
      ↔ (i = segmentIndex (minTimestamp wf.query_timestamp_to_id_) wf.forecast_interval_ e.1
          ∧ i < (CreateSegments wf).GetNumberOfSegments) := by
  rw [CreateSegments_count, CreateSegments_segments]
  constructor
  · rintro ⟨s, hs, hmem⟩
    simp only [List.getElem?_map, Option.map_eq_some'] at hs
    obtain ⟨a, ha, rfl⟩ := hs
    have hrange := List.getElem?_eq_some_iff.mp ha
    obtain ⟨hlt, hval⟩ := hrange
    rw [List.getElem_range] at hval
    subst hval
    rw [List.length_range] at hlt
    simp only [segmentEvents, List.mem_filter, decide_eq_true_eq] at hmem
    exact ⟨hmem.2.symm, hlt⟩
  · rintro ⟨rfl, hlt⟩
    refine ⟨segmentEvents wf.query_timestamp_to_id_
      (minTimestamp wf.query_timestamp_to_id_) wf.forecast_interval_
      (segmentIndex (minTimestamp wf.query_timestamp_to_id_) wf.forecast_interval_ e.1), ?_, ?_⟩
    · rw [List.getElem?_map, List.getElem?_range hlt]; rfl
    · simp [segmentEvents, he]

/-- C8, amended: for a positive interval, every trace event at timestamp `t`,
other than an event at `max_ts` when `max_ts - min_ts` is a multiple of the
interval, belongs to exactly one segment, namely segment
`floor((t - min_ts) / interval)`, and that index is smaller than the segment
count. -/
theorem event_segment_membership (wf : WorkloadForecast) (e : Nat × Nat)
    (hI : 0 < wf.forecast_interval_) (he : e ∈ wf.query_timestamp_to_id_)
    (hlast : ¬ (e.1 = maxTimestamp wf.query_timestamp_to_id_
      ∧ wf.forecast_interval_ ∣ (maxTimestamp wf.query_timestamp_to_id_
          - minTimestamp wf.query_timestamp_to_id_))) :
    segmentIndex (minTimestamp wf.query_timestamp_to_id_) wf.forecast_interval_ e.1
        < (CreateSegments wf).GetNumberOfSegments
    ∧ ∀ i : Nat, (∃ s, (CreateSegments wf).forecast_segments_[i]? = some s ∧ e ∈ s)
        ↔ i = segmentIndex (minTimestamp wf.query_timestamp_to_id_) wf.forecast_interval_ e.1 := by
  have hlt : segmentIndex (minTimestamp wf.query_timestamp_to_id_) wf.forecast_interval_ e.1
      < (CreateSegments wf).GetNumberOfSegments := by
    rw [CreateSegments_count]
    exact (segmentIndex_lt_count_iff _ _ _ _ hI (minTimestamp_le _ e he)
      (le_maxTimestamp _ e he)).mpr hlast
  refine ⟨hlt, ?_⟩
  intro i
  rw [event_in_segment_iff wf e he i]
  constructor
  · exact fun h => h.1
  · intro h
    subst h
    exact ⟨rfl, hlt⟩

theorem event_segment_membership_witness :
    0 < (loaded scenarioTrace 50).forecast_interval_
    ∧ ((55, 1) : Nat × Nat) ∈ (loaded scenarioTrace 50).query_timestamp_to_id_
    ∧ segmentIndex (minTimestamp scenarioTrace) 50 55 = 1
    ∧ (CreateSegments (loaded scenarioTrace 50)).GetNumberOfSegments = 2
    ∧ (∃ s, (CreateSegments (loaded scenarioTrace 50)).forecast_segments_[1]? = some s
        ∧ ((55, 1) : Nat × Nat) ∈ s) :=
  ⟨by decide, by decide, by decide, by decide,
    ((event_segment_membership (loaded scenarioTrace 50) (55, 1) (by decide) (by decide)
      (by decide)).2 1).2 (by decide)⟩

end WorkloadForecast

end noisepage.selfdriving

namespace noisepage.selfdriving

namespace TreeNode

/-! ## Theorems: `ChildrenRollout` -/

theorem IsLeaf_mk (l : Bool) (d v : Nat) (cs : List TreeNode) (a c : Nat) :
    (mk l d v cs a c).IsLeaf = l := rfl

theorem GetDepth_mk (l : Bool) (d v : Nat) (cs : List TreeNode) (a c : Nat) :
    (mk l d v cs a c).GetDepth = d := rfl

theorem GetCurrentAction_mk (l : Bool) (d v : Nat) (cs : List TreeNode) (a c : Nat) :
    (mk l d v cs a c).GetCurrentAction = a := rfl

theorem ChildrenRollout_children (exhausted : Nat → Bool) (oracle : Nat → Nat)
    (candidates : List Nat) (n : TreeNode) :
    (ChildrenRollout exhausted oracle candidates n).children_
      = n.children_ ++ (candidates.filter (fun a => !exhausted a)).map
          (fun a => newChild n.GetDepth a (oracle a)) := rfl

/-- C11, as stated, fails: a leaf whose only candidate action is exhausted on
the path to it is expanded with a non-empty candidate set and ends with zero
children. -/
theorem ChildrenRollout_all_exhausted :
    ([7] : List Nat) ≠ []
      ∧ (ChildrenRollout (fun a => a == 7) (fun _ => 10) [7] (leafOfCost 3)).GetNumberOfChildren
          = 0 := by
  constructor
  · decide
  · rfl

/-- C11, amended: `ChildrenRollout` on a leaf attaches exactly one child per
candidate action not yet exhausted on the path to the node, in the order of the
candidate set, each child a leaf of depth (node depth + 1) carrying that action
with the oracle's cost; the node stops being a leaf; and it ends with at least
one child whenever some candidate action is not exhausted. -/
theorem ChildrenRollout_attaches (exhausted : Nat → Bool) (oracle : Nat → Nat)
    (candidates : List Nat) (n : TreeNode) (hleaf : n.children_ = []) :
    ((ChildrenRollout exhausted oracle candidates n).children_.map GetCurrentAction
        = candidates.filter (fun a => !exhausted a))
    ∧ (∀ c ∈ (ChildrenRollout exhausted oracle candidates n).children_,
        c.IsLeaf = true ∧ c.GetDepth = n.GetDepth + 1 ∧ c.children_ = []
          ∧ c.GetCost = oracle c.GetCurrentAction)
    ∧ (ChildrenRollout exhausted oracle candidates n).IsLeaf = false
    ∧ ((∃ a ∈ candidates, exhausted a = false) →
        1 ≤ (ChildrenRollout exhausted oracle candidates n).GetNumberOfChildren) := by
  rw [ChildrenRollout_children, hleaf, List.nil_append]
  refine ⟨?_, ?_, rfl, ?_⟩
  · rw [List.map_map]
    have : (GetCurrentAction ∘ fun a => newChild n.GetDepth a (oracle a)) = id := by
      funext a; rfl
    rw [this, List.map_id]
  · intro c hc
    obtain ⟨a, _, rfl⟩ := List.mem_map.mp hc
    exact ⟨rfl, rfl, rfl, rfl⟩
  · rintro ⟨a, ha, hex⟩
    have hmem : a ∈ candidates.filter (fun a => !exhausted a) := by
      simp [List.mem_filter, ha, hex]
    have hpos : 0 < (candidates.filter (fun a => !exhausted a)).length :=
      List.length_pos_of_mem hmem
    unfold GetNumberOfChildren
    rw [ChildrenRollout_children, hleaf, List.nil_append, List.length_map]
    exact hpos

theorem ChildrenRollout_attaches_witness :
    (freshRoot 9).children_ = []
    ∧ (ChildrenRollout (fun _ => false) (fun a => 10 * a) [1, 2, 3, 4]
        (freshRoot 9)).GetNumberOfChildren = 4
    ∧ (ChildrenRollout (fun _ => false) (fun a => 10 * a) [1, 2, 3, 4]
        (freshRoot 9)).children_.map GetCurrentAction
          = [1, 2, 3, 4].filter (fun a => !(fun _ => false) a) :=
  ⟨rfl, rfl,
    (ChildrenRollout_attaches (fun _ => false) (fun a => 10 * a) [1, 2, 3, 4]
      (freshRoot 9) rfl).1⟩

end TreeNode

end noisepage.selfdriving

namespace noisepage.selfdriving

namespace pilot

/-! ## Theorems: the change-knob action generator -/

/-- Number of value pairs of the int64 table. -/
theorem foldl_num_actions (m : List (Nat × List (Int × Int))) :
    ∀ start : Nat, m.foldl (fun num_actions it => num_actions + it.2.length * 2) start
      = start + (m.map (fun it => it.2.length * 2)).sum := by
  induction m with
  | nil => intro start; simp
  | cons it rest ih =>
    intro start
    simp only [List.foldl_cons, List.map_cons, List.sum_cons]
    rw [ih]
    omega

theorem length_pair_actions (param : Nat) (pairs : List (Int × Int)) :
    (pairs.flatMap (fun value_pair =>
        [ChangeKnobAction.deltaInt64 param value_pair.1,
         ChangeKnobAction.deltaInt64 param value_pair.2])).length = pairs.length * 2 := by
  induction pairs with
  | nil => rfl
  | cons pr rest ih =>
    simp only [List.flatMap_cons, List.length_append, List.length_cons, List.length_nil, ih]
    omega

theorem length_int64_actions (m : List (Nat × List (Int × Int))) :
    (m.flatMap (fun it => it.2.flatMap (fun value_pair =>
        [ChangeKnobAction.deltaInt64 it.1 value_pair.1,
         ChangeKnobAction.deltaInt64 it.1 value_pair.2]))).length
      = (m.map (fun it => it.2.length * 2)).sum := by
  induction m with
  | nil => rfl
  | cons it rest ih =>
    simp only [List.flatMap_cons, List.length_append, List.map_cons, List.sum_cons, ih,
      length_pair_actions]

theorem length_knobActions (config : ChangeKnobValueConfig) :
    (knobActions config).length = expectedNumActions config := by
  unfold knobActions expectedNumActions
  rw [foldl_num_actions, List.length_append, List.length_map, length_int64_actions]

/-- C12: `GenerateActions` produces one action per boolean knob of the bool
change-value map and two actions per (knob, value pair) of the int64 map, the
total being what the test expects; the action ids are pairwise distinct, and
`candidate_actions` has as many entries as `action_map`. -/
theorem GenerateActions_counts (config : ChangeKnobValueConfig) (next_action_id : Nat) :
    ((GenerateActions config next_action_id).1.map Prod.snd
        = config.bool_change_value_map.map (fun it => ChangeKnobAction.toggleBool it.1)
          ++ config.int64_change_value_map.flatMap (fun it =>
              it.2.flatMap (fun value_pair =>
                [ChangeKnobAction.deltaInt64 it.1 value_pair.1,
                 ChangeKnobAction.deltaInt64 it.1 value_pair.2])))
    ∧ (GenerateActions config next_action_id).1.length
        = config.bool_change_value_map.length
          + (config.int64_change_value_map.map (fun it => it.2.length * 2)).sum
    ∧ (GenerateActions config next_action_id).1.length = expectedNumActions config
    ∧ ((GenerateActions config next_action_id).1.map Prod.fst).Nodup
    ∧ (GenerateActions config next_action_id).2.length
        = (GenerateActions config next_action_id).1.length := by
  have hlen := length_knobActions config
  refine ⟨?_, ?_, ?_, ?_, ?_⟩
  · simp only [GenerateActions, List.enumFrom_map_snd]
    rfl
  · simp only [GenerateActions, List.enumFrom_length, hlen, expectedNumActions,
      foldl_num_actions]
  · simp only [GenerateActions, List.enumFrom_length, hlen]
  · simp only [GenerateActions, List.enumFrom_map_fst]
    exact List.nodup_range' _ _
  · simp only [GenerateActions, List.enumFrom_length, List.length_range']

theorem GetSQLCommand_toggleBool (sm : SettingsManager) (param : Nat) :
    (ChangeKnobAction.toggleBool param).GetSQLCommand sm = expectedBoolCommand sm param := rfl

theorem GetSQLCommand_deltaInt64 (sm : SettingsManager) (param : Nat) (value : Int) :
    (ChangeKnobAction.deltaInt64 param value).GetSQLCommand sm
      = expectedInt64Command sm param value := by
  simp only [ChangeKnobAction.GetSQLCommand, expectedInt64Command, String.append_assoc]

theorem map_GetSQLCommand_knobActions (sm : SettingsManager) (config : ChangeKnobValueConfig) :
    (knobActions config).map (fun a => a.GetSQLCommand sm) = expectedCommands sm config := by
  simp only [knobActions, expectedCommands, List.map_append, List.map_map, List.map_flatMap,
    List.map_cons, List.map_nil, Function.comp_def, GetSQLCommand_toggleBool,
    GetSQLCommand_deltaInt64]

theorem generatedCommands_eq (sm : SettingsManager) (config : ChangeKnobValueConfig)
    (next_action_id : Nat) :
    generatedCommands sm (GenerateActions config next_action_id).1
      = expectedCommands sm config := by
  have h : generatedCommands sm (GenerateActions config next_action_id).1
      = ((GenerateActions config next_action_id).1.map Prod.snd).map
          (fun a => a.GetSQLCommand sm) := by
    simp only [generatedCommands, List.map_map, Function.comp_def]
  rw [h]
  simp only [GenerateActions, List.enumFrom_map_snd]
  exact map_GetSQLCommand_knobActions sm config

theorem mem_expectedCommands (sm : SettingsManager) (config : ChangeKnobValueConfig)
    (command : String) :
    command ∈ expectedCommands sm config
      ↔ (∃ it ∈ config.bool_change_value_map, command = expectedBoolCommand sm it.1)
        ∨ (∃ it ∈ config.int64_change_value_map, ∃ value_pair ∈ it.2,
            command = expectedInt64Command sm it.1 value_pair.1
            ∨ command = expectedInt64Command sm it.1 value_pair.2) := by
  simp only [expectedCommands, List.mem_append, List.mem_map, List.mem_flatMap, List.mem_cons,
    List.mem_singleton, List.not_mem_nil, or_false]
  constructor
  · rintro (⟨it, hit, rfl⟩ | ⟨it, hit, pr, hpr, h⟩)
    · exact Or.inl ⟨it, hit, rfl⟩
    · exact Or.inr ⟨it, hit, pr, hpr, h⟩
  · rintro (⟨it, hit, rfl⟩ | ⟨it, hit, pr, hpr, h⟩)
    · exact Or.inl ⟨it, hit, rfl⟩
    · exact Or.inr ⟨it, hit, pr, hpr, h⟩

/-- C13: the set of SQL commands of the actions `GenerateActions` produces is
the set the test expects: for every boolean knob `set <name> 'false';` when the
knob is on and `set <name> 'true';` otherwise, and for every int64 knob with
current value `v` and every value pair `(a, b)` the two commands
`set <name> <v+a>;` and `set <name> <v+b>;`. -/
theorem GenerateActions_commands (sm : SettingsManager) (config : ChangeKnobValueConfig)
    (next_action_id : Nat) (command : String) :
    (command ∈ generatedCommands sm (GenerateActions config next_action_id).1
      ↔ command ∈ expectedCommands sm config)
    ∧ (command ∈ generatedCommands sm (GenerateActions config next_action_id).1
      ↔ (∃ it ∈ config.bool_change_value_map,
            command = "set " ++ sm.name_ it.1
              ++ (if sm.GetBool it.1 then " 'false';" else " 'true';"))
        ∨ (∃ it ∈ config.int64_change_value_map, ∃ value_pair ∈ it.2,
            command = "set " ++ sm.name_ it.1 ++ " "
                ++ toString (sm.GetInt64 it.1 + value_pair.1) ++ ";"
            ∨ command = "set " ++ sm.name_ it.1 ++ " "
                ++ toString (sm.GetInt64 it.1 + value_pair.2) ++ ";")) := by
  rw [generatedCommands_eq]
  refine ⟨Iff.rfl, ?_⟩
  rw [mem_expectedCommands]
  simp only [← GetSQLCommand_deltaInt64, ← GetSQLCommand_toggleBool,
    ChangeKnobAction.GetSQLCommand]

theorem GenerateActions_counts_witness :
    expectedNumActions sampleConfig = 5
    ∧ (GenerateActions sampleConfig 0).1.length = expectedNumActions sampleConfig
    ∧ (GenerateActions sampleConfig 0).2 = [0, 1, 2, 3, 4] :=
  ⟨by decide, (GenerateActions_counts sampleConfig 0).2.2.1, by decide⟩

theorem GenerateActions_commands_witness :
    generatedCommands sampleSettings (GenerateActions sampleConfig 0).1
      = ["set flag 'false';", "set size 110;", "set size 90;", "set size 150;", "set size 50;"]
    ∧ "set size 90;" ∈ generatedCommands sampleSettings (GenerateActions sampleConfig 0).1 :=
  ⟨by decide,
    (GenerateActions_commands sampleSettings sampleConfig 0 "set size 90;").1.mpr (by decide)⟩

end pilot

end noisepage.selfdriving

namespace noisepage.catalog.postgres

namespace PgProcImpl

/-! ## Theorems: `GetProcOid` -/

theorem matchLoop_eq (env : CatalogEnv) (table : SqlTable) (arg_types : List Nat) :
    ∀ (results acc : List Nat), matchLoop env table arg_types results acc
      = match (results.filterMap table.Select).find?
            (fun row => argTypesMatch env row.proargtypes arg_types) with
        | some row => acc ++ [row.prooid]
        | none => acc := by
  intro results
  induction results with
  | nil => intro acc; rfl
  | cons tuple rest ih =>
    intro acc
    simp only [matchLoop]
    cases hsel : table.Select tuple with
    | none =>
      simp only [List.filterMap_cons, hsel]
      exact ih acc
    | some row =>
      simp only [List.filterMap_cons, hsel, List.find?_cons]
      cases hm : argTypesMatch env row.proargtypes arg_types with
      | true => simp
      | false =>
        simp only [Bool.false_eq_true, if_false]
        exact ih acc

/-- The oid `GetProcOid` returns: that of the first matching row in scan order,
or `INVALID_PROC_OID`. -/
theorem GetProcOid_eq (env : CatalogEnv) (impl : PgProcImpl) (procns : Nat)
    (procname : String) (arg_types : List Nat) :
    GetProcOid env impl procns procname arg_types
      = Except.ok
          (match (namedRows impl procns procname).find?
              (fun row => argTypesMatch env row.proargtypes arg_types) with
            | some row => row.prooid
            | none => env.INVALID_PROC_OID) := by
  unfold GetProcOid namedRows
  cases hres : Index.ScanKey impl.procs_name_index_ impl.procs_ (procns, procname) with
  | nil => rfl
  | cons tuple rest =>
    simp only [List.isEmpty_cons, Bool.false_eq_true, if_false]
    rw [matchLoop_eq]
    cases ((tuple :: rest).filterMap impl.procs_.Select).find?
        (fun row => argTypesMatch env row.proargtypes arg_types) with
    | none => rfl
    | some row => rfl

/-- The exception of `GetProcOid` is never thrown. -/
theorem GetProcOid_never_throws (env : CatalogEnv) (impl : PgProcImpl) (procns : Nat)
    (procname : String) (arg_types : List Nat) :
    GetProcOid env impl procns procname arg_types ≠ Except.error Failure.duplicateFunction := by
  rw [GetProcOid_eq]
  intro h
  cases h

/-- The catalog `twoProcedures` is what two calls of `CreateProcedure` build from
the empty catalog. -/
theorem twoProcedures_created :
    ((CreateProcedure sampleEnv emptyCatalog emptyTxn 1001 "f" 12 15 ["x"] [9] [9] [] 4 ""
        false).bind
      (fun r => CreateProcedure sampleEnv r.1 r.2.1 1002 "f" 12 15 ["x"] [4] [4] [] 4 ""
        false)).map (fun r => (r.1, r.2.2))
      = Except.ok (twoProcedures, true) := by
  rfl

/-- C14: `GetProcOid` does not fail when more than one entry matches.  In a
catalog with two procedures `f` in namespace 15, the variadic oid 1001 and oid
1002 with signature `[4]`, both match the argument types `[4]`, and the call
returns 1001, the first in scan order, without the duplicate-function error. -/
theorem GetProcOid_ambiguous_returns_first :
    (namedRows twoProcedures 15 "f").map
        (fun row => (row.prooid, argTypesMatch sampleEnv row.proargtypes [4]))
      = [(1001, true), (1002, true)]
    ∧ GetProcOid sampleEnv twoProcedures 15 "f" [4] = Except.ok 1001 := by
  constructor
  · rfl
  · rfl

end PgProcImpl

end noisepage.catalog.postgres

namespace noisepage.catalog.postgres

namespace PgProcImpl

/-- C16: an entry whose stored argument types are the single `VARIADIC` type
matches every non-empty list of argument types and does not match the empty
list; so on a catalog whose only visible entry under the name is such an entry,
`GetProcOid` returns its oid for every non-empty argument list and
`INVALID_PROC_OID` for the empty one. -/
theorem variadic_entry_matches (env : CatalogEnv) (arg_types : List Nat) :
    (argTypesMatch env [env.VARIADIC] arg_types = true ↔ arg_types ≠ [])
    ∧ ∀ (impl : PgProcImpl) (procns : Nat) (procname : String) (row : PgProcRow),
        namedRows impl procns procname = [row] → row.proargtypes = [env.VARIADIC] →
        GetProcOid env impl procns procname arg_types
          = Except.ok (if arg_types = [] then env.INVALID_PROC_OID else row.prooid) := by
  have hmatch : argTypesMatch env [env.VARIADIC] arg_types = true ↔ arg_types ≠ [] := by
    cases arg_types with
    | nil => simp [argTypesMatch]
    | cons a rest => simp [argTypesMatch]
  refine ⟨hmatch, ?_⟩
  intro impl procns procname row hrows hvar
  rw [GetProcOid_eq, hrows]
  by_cases hargs : arg_types = []
  · subst hargs
    have : argTypesMatch env [env.VARIADIC] [] = false := by simp [argTypesMatch]
    simp [List.find?_cons, hvar, this]
  · have : argTypesMatch env [env.VARIADIC] arg_types = true := hmatch.mpr hargs
    simp [List.find?_cons, hvar, this, hargs]

/-! ## Theorems: `CreateProcedure` and `GetProcOid` -/

theorem visible_append_of_lt (table : SqlTable) (tuple : TableTuple) (slot : Nat)
    (h : slot < table.tuples.length) :
    SqlTable.visible { table with tuples := table.tuples ++ [tuple] } slot
      = table.visible slot := by
  simp only [SqlTable.visible, List.getElem?_append_left h]

theorem visible_of_length_le (table : SqlTable) (slot : Nat)
    (h : table.tuples.length ≤ slot) : table.visible slot = false := by
  simp only [SqlTable.visible, List.getElem?_eq_none h]

theorem ScanKey_append {κ : Type} [DecidableEq κ] (index : Index κ) (table : SqlTable)
    (key : κ) (slot : Nat) :
    Index.ScanKey (index ++ [(key, slot)]) table key
      = Index.ScanKey index table key ++ (if table.visible slot then [slot] else []) := by
  simp only [Index.ScanKey, List.filter_append, List.map_append]
  congr 1
  cases hv : table.visible slot <;> simp [List.filter_cons, hv]

/-- Inserting a fresh tuple and its name-index entry into a catalog with no
visible entry under the key leaves exactly the new slot under the key. -/
theorem ScanKey_after_insert (index : Index (Nat × String)) (table : SqlTable)
    (key : Nat × String) (row : PgProcRow)
    (hnone : Index.ScanKey index table key = [])
    (hfresh : (key, table.tuples.length) ∉ index) :
    Index.ScanKey (index ++ [(key, table.tuples.length)]) (table.Insert row).1 key
      = [table.tuples.length] := by
  rw [ScanKey_append]
  have hold : Index.ScanKey index (table.Insert row).1 key = [] := by
    simp only [Index.ScanKey, List.map_eq_nil_iff, List.filter_eq_nil_iff, Bool.and_eq_true,
      decide_eq_true_eq, not_and, Bool.not_eq_true] at hnone ⊢
    intro entry hentry hkey
    rcases Nat.lt_trichotomy entry.2 table.tuples.length with hlt | heq | hgt
    · rw [SqlTable.Insert, visible_append_of_lt _ _ _ hlt]
      exact hnone entry hentry hkey
    · exfalso
      apply hfresh
      have : entry = (key, table.tuples.length) := by
        rw [← hkey, ← heq]
      rw [← this]
      exact hentry
    · apply visible_of_length_le
      simp only [SqlTable.Insert, List.length_append, List.length_cons, List.length_nil]
      omega
  have hnew : SqlTable.visible (table.Insert row).1 table.tuples.length = true := by
    simp [SqlTable.visible, SqlTable.Insert]
  rw [hold, hnew]
  rfl

theorem Select_after_insert (table : SqlTable) (row : PgProcRow) :
    (table.Insert row).1.Select table.tuples.length = some row := by
  simp [SqlTable.Select, SqlTable.Insert]

theorem argTypesMatch_self (env : CatalogEnv) (arg_types : List Nat) :
    argTypesMatch env arg_types arg_types = true := by
  simp [argTypesMatch]

/-- The catalog `CreateProcedure` leaves when it returns `true`: the table holds
the new row in a fresh slot, and the name index has gained the entry for it. -/
theorem CreateProcedure_true (env : CatalogEnv) (impl impl1 : PgProcImpl)
    (txn txn1 : TransactionContext) (oid : Nat) (procname : String) (language_oid procns : Nat)
    (args : List String) (arg_types all_arg_types arg_modes : List Nat) (rettype : Nat)
    (src : String) (is_aggregate : Bool)
    (h : CreateProcedure env impl txn oid procname language_oid procns args arg_types
      all_arg_types arg_modes rettype src is_aggregate = Except.ok (impl1, txn1, true)) :
    impl1.procs_ = (impl.procs_.Insert (newRow env oid procname language_oid procns args
        arg_types all_arg_types arg_modes rettype src is_aggregate)).1
    ∧ impl1.procs_name_index_
        = impl.procs_name_index_ ++ [((procns, procname), impl.procs_.tuples.length)]
    ∧ ((procns, procname), impl.procs_.tuples.length) ∉ impl.procs_name_index_ := by
  unfold CreateProcedure at h
  split at h
  · cases h
  · simp only [Index.Insert] at h
    by_cases hmem : ((procns, procname), (impl.procs_.Insert (newRow env oid procname
        language_oid procns args arg_types all_arg_types arg_modes rettype src
        is_aggregate)).2) ∈ impl.procs_name_index_
    · rw [if_pos hmem] at h
      simp only [Except.ok.injEq, Prod.mk.injEq, Bool.false_eq_true, and_false] at h
    · rw [if_neg hmem] at h
      simp only at h
      split at h
      · split at h
        · cases h
        · simp only [Except.ok.injEq, Prod.mk.injEq, and_true] at h
          obtain ⟨rfl, _⟩ := h
          exact ⟨rfl, rfl, hmem⟩
      · simp only [Except.ok.injEq, Prod.mk.injEq, and_true] at h
        obtain ⟨rfl, _⟩ := h
        exact ⟨rfl, rfl, hmem⟩

/-- C17: after `CreateProcedure(oid, name, namespace, arg_types, ...)` returns
`true` on a catalog with no visible procedure of that name in that namespace,
`GetProcOid(namespace, name, arg_types)` returns `oid`. -/
theorem GetProcOid_after_CreateProcedure (env : CatalogEnv) (impl impl1 : PgProcImpl)
    (txn txn1 : TransactionContext) (oid : Nat) (procname : String) (language_oid procns : Nat)
    (args : List String) (arg_types all_arg_types arg_modes : List Nat) (rettype : Nat)
    (src : String) (is_aggregate : Bool)
    (hcreate : CreateProcedure env impl txn oid procname language_oid procns args arg_types
      all_arg_types arg_modes rettype src is_aggregate = Except.ok (impl1, txn1, true))
    (hnone : Index.ScanKey impl.procs_name_index_ impl.procs_ (procns, procname) = []) :
    GetProcOid env impl1 procns procname arg_types = Except.ok oid := by
  obtain ⟨htable, hindex, hfresh⟩ := CreateProcedure_true env impl impl1 txn txn1 oid procname
    language_oid procns args arg_types all_arg_types arg_modes rettype src is_aggregate hcreate
  have hrows : namedRows impl1 procns procname
      = [newRow env oid procname language_oid procns args arg_types all_arg_types arg_modes
          rettype src is_aggregate] := by
    unfold namedRows
    rw [htable, hindex, ScanKey_after_insert _ _ _ _ hnone hfresh]
    simp only [List.filterMap_cons, Select_after_insert, List.filterMap_nil]
  rw [GetProcOid_eq, hrows]
  have hm : argTypesMatch env (newRow env oid procname language_oid procns args arg_types
      all_arg_types arg_modes rettype src is_aggregate).proargtypes arg_types = true :=
    argTypesMatch_self env arg_types
  simp only [List.find?_cons, hm]
  rfl

theorem GetProcOid_after_CreateProcedure_witness :
    CreateProcedure sampleEnv twoProcedures emptyTxn 1003 "g" 12 15 ["x", "y"] [4, 4] [4, 4] []
        4 "" false
      = Except.ok
          (⟨1,
            ⟨twoProcedures.procs_.tuples
              ++ [⟨newRow sampleEnv 1003 "g" 12 15 ["x", "y"] [4, 4] [4, 4] [] 4 "" false,
                  false⟩], []⟩,
            [(1001, 0), (1002, 1), (1003, 2)],
            [((15, "f"), 0), ((15, "f"), 1), ((15, "g"), 2)]⟩,
           ⟨[StagedRecord.redo 1 81 2
              (Delta.allColumns
                (newRow sampleEnv 1003 "g" 12 15 ["x", "y"] [4, 4] [4, 4] [] 4 "" false))], []⟩,
           true)
    ∧ GetProcOid sampleEnv
        ⟨1,
          ⟨twoProcedures.procs_.tuples
            ++ [⟨newRow sampleEnv 1003 "g" 12 15 ["x", "y"] [4, 4] [4, 4] [] 4 "" false,
                false⟩], []⟩,
          [(1001, 0), (1002, 1), (1003, 2)],
          [((15, "f"), 0), ((15, "f"), 1), ((15, "g"), 2)]⟩ 15 "g" [4, 4]
      = Except.ok 1003 :=
  ⟨rfl,
    GetProcOid_after_CreateProcedure sampleEnv twoProcedures _ emptyTxn _ 1003 "g" 12 15
      ["x", "y"] [4, 4] [4, 4] [] 4 "" false rfl rfl⟩

end PgProcImpl

end noisepage.catalog.postgres

namespace noisepage.catalog.postgres

namespace PgProcImpl

/-! ## Theorems: `SetProcCtxPtr` and `GetProcCtxPtr` -/

theorem UpdateCtxPtr_some (table table1 : SqlTable) (slot func_context : Nat)
    (h : table.UpdateCtxPtr slot func_context = some table1) :
    table.writable slot = true
    ∧ table1.write_locked = table.write_locked
    ∧ table1.tuples = table.tuples.modify
        (fun tuple => { tuple with row := { tuple.row with pro_ctx_ptr := some func_context } })
        slot := by
  unfold SqlTable.UpdateCtxPtr at h
  split at h
  · rename_i hw
    simp only [Option.some.injEq] at h
    subst h
    exact ⟨hw, rfl, rfl⟩
  · cases h

theorem visible_after_UpdateCtxPtr (table table1 : SqlTable) (slot func_context : Nat)
    (h : table.UpdateCtxPtr slot func_context = some table1) (other : Nat) :
    table1.visible other = table.visible other := by
  obtain ⟨_, _, htuples⟩ := UpdateCtxPtr_some table table1 slot func_context h
  simp only [SqlTable.visible, htuples]
  by_cases hs : slot = other
  · subst hs
    rw [List.getElem?_modify_eq]
    cases table.tuples[slot]? <;> rfl
  · rw [List.getElem?_modify_ne _ _ hs]

theorem ScanKey_after_UpdateCtxPtr {κ : Type} [DecidableEq κ] (index : Index κ)
    (table table1 : SqlTable) (slot func_context : Nat)
    (h : table.UpdateCtxPtr slot func_context = some table1) (key : κ) :
    Index.ScanKey index table1 key = Index.ScanKey index table key := by
  simp only [Index.ScanKey, visible_after_UpdateCtxPtr table table1 slot func_context h]

theorem Select_after_UpdateCtxPtr_ne (table table1 : SqlTable) (slot func_context : Nat)
    (h : table.UpdateCtxPtr slot func_context = some table1) (other : Nat)
    (hne : other ≠ slot) :
    table1.tuples[other]? = table.tuples[other]? ∧ table1.Select other = table.Select other := by
  obtain ⟨_, _, htuples⟩ := UpdateCtxPtr_some table table1 slot func_context h
  have : table1.tuples[other]? = table.tuples[other]? := by
    rw [htuples, List.getElem?_modify_ne _ _ (Ne.symm hne)]
  exact ⟨this, by simp only [SqlTable.Select, this]⟩

theorem Select_after_UpdateCtxPtr (table table1 : SqlTable) (slot func_context : Nat)
    (h : table.UpdateCtxPtr slot func_context = some table1) :
    ∃ row, table1.Select slot = some row ∧ row.pro_ctx_ptr = some func_context := by
  obtain ⟨hw, _, htuples⟩ := UpdateCtxPtr_some table table1 slot func_context h
  simp only [SqlTable.writable, SqlTable.visible, Bool.and_eq_true] at hw
  cases hget : table.tuples[slot]? with
  | none => rw [hget] at hw; simp at hw
  | some tuple =>
    refine ⟨{ tuple.row with pro_ctx_ptr := some func_context }, ?_, rfl⟩
    simp only [SqlTable.Select, htuples, List.getElem?_modify_eq, hget]
    rfl

/-- What `SetProcCtxPtr` has done when it returns `true`: the oid index gave a
slot first, the table granted the update of that slot, and only the table
changed. -/
theorem SetProcCtxPtr_true (env : CatalogEnv) (impl impl1 : PgProcImpl)
    (txn txn1 : TransactionContext) (proc_oid func_context : Nat)
    (h : SetProcCtxPtr env impl txn proc_oid func_context = Except.ok (impl1, txn1, true)) :
    ∃ slot rest table,
      Index.ScanKey impl.procs_oid_index_ impl.procs_ proc_oid = slot :: rest
      ∧ (env.asserts = true → rest = [])
      ∧ impl.procs_.UpdateCtxPtr slot func_context = some table
      ∧ impl1 = { impl with procs_ := table } := by
  unfold SetProcCtxPtr at h
  simp only at h
  split at h
  · cases h
  · rename_i hassert
    cases hres : Index.ScanKey impl.procs_oid_index_ impl.procs_ proc_oid with
    | nil => rw [hres] at h; cases h
    | cons slot rest =>
      rw [hres] at h hassert
      simp only at h
      cases hupd : impl.procs_.UpdateCtxPtr slot func_context with
      | none =>
        rw [hupd] at h
        simp only [Except.ok.injEq, Prod.mk.injEq, Bool.false_eq_true, and_false] at h
      | some table =>
        rw [hupd] at h
        simp only [Except.ok.injEq, Prod.mk.injEq, and_true] at h
        refine ⟨slot, rest, table, rfl, ?_, hupd, h.1.symm⟩
        intro ha
        simp only [ha, Bool.true_and, Bool.not_eq_true', decide_eq_false_iff_not,
          List.length_cons, Nat.add_left_eq_self, Decidable.not_not] at hassert
        exact List.eq_nil_of_length_eq_zero hassert

/-- C18: after `SetProcCtxPtr(oid, ctx)` returns `true`, `GetProcCtxPtr(oid)`
returns `ctx`; every tuple of `pg_proc` other than the one updated is unchanged,
and `GetProcCtxPtr` returns what it returned before for every oid whose index
scan does not lead to the updated tuple. -/
theorem GetProcCtxPtr_after_SetProcCtxPtr (env : CatalogEnv) (impl impl1 : PgProcImpl)
    (txn txn1 : TransactionContext) (proc_oid func_context : Nat)
    (h : SetProcCtxPtr env impl txn proc_oid func_context = Except.ok (impl1, txn1, true)) :
    GetProcCtxPtr env impl1 proc_oid = Except.ok func_context
    ∧ ∃ slot, (Index.ScanKey impl.procs_oid_index_ impl.procs_ proc_oid).head? = some slot
        ∧ (∀ other, other ≠ slot → impl1.procs_.tuples[other]? = impl.procs_.tuples[other]?)
        ∧ ∀ other_oid,
            (Index.ScanKey impl.procs_oid_index_ impl.procs_ other_oid).head? ≠ some slot →
            GetProcCtxPtr env impl1 other_oid = GetProcCtxPtr env impl other_oid := by
  obtain ⟨slot, rest, table, hres, hrest, hupd, rfl⟩ :=
    SetProcCtxPtr_true env impl impl1 txn txn1 proc_oid func_context h
  have hscan : ∀ key, Index.ScanKey impl.procs_oid_index_ table key
      = Index.ScanKey impl.procs_oid_index_ impl.procs_ key :=
    ScanKey_after_UpdateCtxPtr impl.procs_oid_index_ impl.procs_ table slot func_context hupd
  refine ⟨?_, slot, by rw [hres]; rfl, ?_, ?_⟩
  · obtain ⟨row, hsel, hctx⟩ :=
      Select_after_UpdateCtxPtr impl.procs_ table slot func_context hupd
    unfold GetProcCtxPtr
    simp only [hscan, hres]
    have hassert : (env.asserts && !decide ((slot :: rest).length = 1)) = false := by
      cases ha : env.asserts with
      | false => rfl
      | true => rw [hrest ha]; rfl
    rw [hassert]
    simp only [Bool.false_eq_true, if_false, hsel, hctx]
  · intro other hne
    exact (Select_after_UpdateCtxPtr_ne impl.procs_ table slot func_context hupd other hne).1
  · intro other_oid hhead
    unfold GetProcCtxPtr
    simp only [hscan]
    cases hother : Index.ScanKey impl.procs_oid_index_ impl.procs_ other_oid with
    | nil => rfl
    | cons slot1 rest1 =>
      have hne : slot1 ≠ slot := by
        intro heq
        apply hhead
        rw [hother, heq]
        rfl
      simp only
      rw [(Select_after_UpdateCtxPtr_ne impl.procs_ table slot func_context hupd slot1 hne).2]

theorem GetProcCtxPtr_after_SetProcCtxPtr_witness :
    SetProcCtxPtr sampleEnv twoProcedures emptyTxn 1002 77
      = Except.ok (twoProceduresWithContext,
          ⟨[StagedRecord.redo 1 sampleEnv.PRO_TABLE_OID 1 (Delta.ctxPtr 77)], []⟩, true)
    ∧ GetProcCtxPtr sampleEnv twoProceduresWithContext 1002 = Except.ok 77
    ∧ GetProcCtxPtr sampleEnv twoProcedures 1002 = Except.error Failure.assertion :=
  ⟨rfl,
    (GetProcCtxPtr_after_SetProcCtxPtr sampleEnv twoProcedures twoProceduresWithContext
      emptyTxn ⟨[StagedRecord.redo 1 sampleEnv.PRO_TABLE_OID 1 (Delta.ctxPtr 77)], []⟩
      1002 77 rfl).1,
    rfl⟩

/-! ## Theorems: `DropProcedure` -/

/-- C19: `DropProcedure` called with an oid other than `INVALID_PROC_OID` that
has no visible entry in the oid index returns `false` and leaves the table, both
indexes and the records staged in the transaction as they were. -/
theorem DropProcedure_not_found (env : CatalogEnv) (impl : PgProcImpl)
    (txn : TransactionContext) (proc : Nat) (hvalid : proc ≠ env.INVALID_PROC_OID)
    (habsent : ∀ entry ∈ impl.procs_oid_index_, entry.1 = proc →
      impl.procs_.visible entry.2 = false) :
    DropProcedure env impl txn proc = Except.ok (impl, txn, false) := by
  have hscan : Index.ScanKey impl.procs_oid_index_ impl.procs_ proc = [] := by
    simp only [Index.ScanKey, List.map_eq_nil_iff, List.filter_eq_nil_iff, Bool.and_eq_true,
      decide_eq_true_eq, not_and, Bool.not_eq_true]
    exact habsent
  unfold DropProcedure
  have hassert : (env.asserts && decide (proc = env.INVALID_PROC_OID)) = false := by
    simp [hvalid]
  rw [hassert, hscan]
  rfl

theorem DropProcedure_not_found_witness :
    (1005 : Nat) ≠ sampleEnv.INVALID_PROC_OID
    ∧ DropProcedure sampleEnv twoProcedures emptyTxn 1005
        = Except.ok (twoProcedures, emptyTxn, false) :=
  ⟨by decide,
    DropProcedure_not_found sampleEnv twoProcedures emptyTxn 1005 (by decide) (by decide)⟩

/-- Whenever `DropProcedure` gets as far as staging the delete, the record it
stages names `LANGUAGE_TABLE_OID`. -/
theorem DropProcedure_staged (env : CatalogEnv) (impl impl1 : PgProcImpl)
    (txn txn1 : TransactionContext) (proc slot : Nat) (rest : List Nat) (result : Bool)
    (hfound : Index.ScanKey impl.procs_oid_index_ impl.procs_ proc = slot :: rest)
    (h : DropProcedure env impl txn proc = Except.ok (impl1, txn1, result)) :
    txn1.staged
      = txn.staged ++ [StagedRecord.delete impl.db_oid_ env.LANGUAGE_TABLE_OID slot] := by
  unfold DropProcedure at h
  rw [hfound] at h
  simp only at h
  split at h
  · cases h
  · split at h
    · cases h
    · cases hdel : impl.procs_.Delete slot with
      | none =>
        rw [hdel] at h
        simp only [Except.ok.injEq, Prod.mk.injEq] at h
        rw [← h.2.1]
      | some table =>
        rw [hdel] at h
        simp only at h
        cases hsel : table.Select slot with
        | none => rw [hsel] at h; cases h
        | some row =>
          rw [hsel] at h
          simp only [Except.ok.injEq, Prod.mk.injEq] at h
          rw [← h.2.1]
          cases row.pro_ctx_ptr <;> rfl

/-- C20: the delete record `DropProcedure` stages does not name the `pg_proc`
table.  Dropping procedure 1002, found in slot 1 of `pg_proc`, stages a delete
record for slot 1 of the table `LANGUAGE_TABLE_OID` (71 here), not of
`PgProc::PRO_TABLE_OID` (81 here), and then deletes the tuple from `pg_proc`. -/
theorem DropProcedure_stages_language_table :
    (DropProcedure sampleEnv twoProcedures emptyTxn 1002).map
        (fun r => (r.2.1.staged, r.2.2, r.1.procs_.visible 1))
      = Except.ok ([StagedRecord.delete 1 sampleEnv.LANGUAGE_TABLE_OID 1], true, false)
    ∧ StagedRecord.delete 1 sampleEnv.LANGUAGE_TABLE_OID 1
        ≠ StagedRecord.delete 1 sampleEnv.PRO_TABLE_OID 1 := by
  constructor
  · rfl
  · decide

end PgProcImpl

end noisepage.catalog.postgres

namespace noisepage.selfdriving

namespace PilotUtil

/-! ## Theorems: order independence of `GroupFeaturesByOU` -/

theorem traversal_perm {α : Type} {records permuted : List (PipelineData α)}
    (h : records.Perm permuted) : (traversal records).Perm (traversal permuted) :=
  List.Perm.flatMap_right _ h

theorem attributesOfType_perm {α : Type} (type : Nat)
    {flat permuted : List (Nat × Nat × ExecutionOperatingUnitFeature α)}
    (h : flat.Perm permuted) :
    (attributesOfType type flat).Perm (attributesOfType type permuted) :=
  List.Perm.map _ (List.Perm.filter _ h)

theorem find_pushBack_none {α : Type} (m : OUFeatureMap α) (type other : Nat) (attrs : α)
    (h : OUFeatureMap.find m other = none) :
    OUFeatureMap.find (OUFeatureMap.pushBack m type attrs) other = none := by
  by_cases ht : other = type
  · subst ht
    rw [find_pushBack_same, h]
    rfl
  · rw [find_pushBack_other _ _ _ ht, h]

/-- A run that returns creates no batch: a type without a batch before has none
after. -/
theorem groupTraversal_find_none {α : Type}
    (flat : List (Nat × Nat × ExecutionOperatingUnitFeature α)) :
    ∀ (out out1 : GroupOutput α), groupTraversal out flat = Except.ok out1 →
      ∀ type, out.ou_to_features.find type = none → out1.ou_to_features.find type = none := by
  induction flat with
  | nil =>
    intro out out1 h type hnone
    simp only [groupTraversal, Except.ok.injEq] at h
    rw [← h]
    exact hnone
  | cons x rest ih =>
    intro out out1 h type hnone
    obtain ⟨q, p, f⟩ := x
    simp only [groupTraversal] at h
    cases hfind : out.ou_to_features.find f.type_ with
    | none =>
      rw [groupFeature_of_no_batch q p out f hfind] at h
      cases h
    | some batch =>
      rw [groupFeature_of_batch q p out f batch hfind] at h
      exact ih _ out1 h type (find_pushBack_none _ _ _ _ hnone)

/-- After a run that starts with no tuples and with a batch for every type that
occurs, the recoverable associations are those of the traversal. -/
theorem recoveredAssociations_of_batches {α : Type} (out : GroupOutput α)
    (records : List (PipelineData α)) (hpos : out.pipeline_to_ou_position = [])
    (h : ∀ x ∈ traversal records, ∃ batch, out.ou_to_features.find x.2.2.type_ = some batch) :
    ∃ out1, GroupFeaturesByOU out records = Except.ok out1
      ∧ recoveredAssociations out1 (traversal records)
          = (traversal records).map
              (fun x => (x.1, x.2.1, x.2.2.type_, some x.2.2.attributes_))
      ∧ ∀ type, out1.ou_to_features.find type
          = (out.ou_to_features.find type).map
              (fun batch => batch ++ attributesOfType type (traversal records)) := by
  obtain ⟨out1, tuples, hrun, htuples, hlen, hbatches, hidx⟩ :=
    GroupFeaturesByOU_of_batches out records h
  refine ⟨out1, hrun, ?_, ?_⟩
  · rw [hpos, List.nil_append] at htuples
    unfold recoveredAssociations
    rw [htuples]
    apply List.ext_getElem?
    intro i
    rw [List.getElem?_zipWith, List.getElem?_map]
    cases hget : (traversal records)[i]? with
    | none => cases tuples[i]? <;> rfl
    | some x =>
      obtain ⟨q, p, f⟩ := x
      obtain ⟨pos, batch, htup, hfind, hat⟩ := hidx i q p f hget
      rw [htup]
      simp only [Option.map_some', hfind, Option.some_bind, hat]
  · intro type
    cases hfind : out.ou_to_features.find type with
    | none =>
      rw [GroupFeaturesByOU_eq_groupTraversal] at hrun
      rw [groupTraversal_find_none _ out out1 hrun type hfind]
      rfl
    | some batch =>
      rw [hbatches type batch hfind]
      rfl

/-- With a batch present for every type that occurs and no tuples recorded yet,
`GroupFeaturesByOU` is order-independent: run on a list of records and on a
permutation of it, both runs return, every type gets the same multiset of
attribute vectors, and the recoverable associations are the same multiset. -/
theorem GroupFeaturesByOU_order_independent_of_batches {α : Type} (out : GroupOutput α)
    (records permuted : List (PipelineData α)) (hperm : records.Perm permuted)
    (hpos : out.pipeline_to_ou_position = [])
    (h : ∀ x ∈ traversal records, ∃ batch, out.ou_to_features.find x.2.2.type_ = some batch) :
    ∃ out1 out2, GroupFeaturesByOU out records = Except.ok out1
      ∧ GroupFeaturesByOU out permuted = Except.ok out2
      ∧ (∀ type, (out1.ou_to_features.find type).map (fun batch => (batch : Multiset α))
          = (out2.ou_to_features.find type).map (fun batch => (batch : Multiset α)))
      ∧ ((recoveredAssociations out1 (traversal records) : List (Nat × Nat × Nat × Option α))
            : Multiset (Nat × Nat × Nat × Option α))
          = (recoveredAssociations out2 (traversal permuted)
              : List (Nat × Nat × Nat × Option α)) := by
  have htrav := traversal_perm hperm
  have h2 : ∀ x ∈ traversal permuted,
      ∃ batch, out.ou_to_features.find x.2.2.type_ = some batch :=
    fun x hx => h x (htrav.mem_iff.mpr hx)
  obtain ⟨out1, hrun1, hassoc1, hfind1⟩ := recoveredAssociations_of_batches out records hpos h
  obtain ⟨out2, hrun2, hassoc2, hfind2⟩ := recoveredAssociations_of_batches out permuted hpos h2
  refine ⟨out1, out2, hrun1, hrun2, ?_, ?_⟩
  · intro type
    rw [hfind1, hfind2]
    cases out.ou_to_features.find type with
    | none => rfl
    | some batch =>
      show some ((batch ++ attributesOfType type (traversal records) : List α) : Multiset α)
        = some ((batch ++ attributesOfType type (traversal permuted) : List α) : Multiset α)
      rw [Option.some.injEq, Multiset.coe_eq_coe]
      exact List.Perm.append_left _ (attributesOfType_perm type htrav)
  · rw [hassoc1, hassoc2, Multiset.coe_eq_coe]
    exact List.Perm.map _ htrav

/-- C22: started from empty outputs, `GroupFeaturesByOU` gives no grouping in any
order.  On two records with one feature each and on the same records swapped,
both runs leave by `std::out_of_range` at their first feature; no type has a
batch, and the one tuple each run has recorded belongs to a different record,
so that the recoverable associations differ. -/
theorem GroupFeaturesByOU_order_from_empty :
    twoRecords.Perm twoRecordsSwapped
    ∧ GroupFeaturesByOU (⟨[], []⟩ : GroupOutput Nat) twoRecords
        = Except.error ⟨[(1, 1, 0)], []⟩
    ∧ GroupFeaturesByOU (⟨[], []⟩ : GroupOutput Nat) twoRecordsSwapped
        = Except.error ⟨[(2, 1, 0)], []⟩
    ∧ recoveredAssociations
          (finalOutput (GroupFeaturesByOU (⟨[], []⟩ : GroupOutput Nat) twoRecords))
          (traversal twoRecords) = [(1, 1, 3, none)]
    ∧ recoveredAssociations
          (finalOutput (GroupFeaturesByOU (⟨[], []⟩ : GroupOutput Nat) twoRecordsSwapped))
          (traversal twoRecordsSwapped) = [(2, 1, 4, none)] := by
  refine ⟨?_, rfl, rfl, rfl, rfl⟩
  exact List.Perm.swap _ _ []

/-- The order independence at work: with empty batches present for the types 3
and 4, the two orders of `twoRecords` give the same batches and the same
associations. -/
theorem GroupFeaturesByOU_order_independent_of_batches_example :
    twoRecords.Perm twoRecordsSwapped
    ∧ GroupFeaturesByOU (⟨[], [(3, []), (4, [])]⟩ : GroupOutput Nat) twoRecords
        = Except.ok ⟨[(1, 1, 0), (2, 1, 0)], [(3, [70]), (4, [80])]⟩
    ∧ GroupFeaturesByOU (⟨[], [(3, []), (4, [])]⟩ : GroupOutput Nat) twoRecordsSwapped
        = Except.ok ⟨[(2, 1, 0), (1, 1, 0)], [(3, [70]), (4, [80])]⟩
    ∧ ∃ out1 out2,
        GroupFeaturesByOU (⟨[], [(3, []), (4, [])]⟩ : GroupOutput Nat) twoRecords
          = Except.ok out1
        ∧ GroupFeaturesByOU (⟨[], [(3, []), (4, [])]⟩ : GroupOutput Nat) twoRecordsSwapped
            = Except.ok out2
        ∧ (∀ type, (out1.ou_to_features.find type).map (fun batch => (batch : Multiset Nat))
            = (out2.ou_to_features.find type).map (fun batch => (batch : Multiset Nat)))
        ∧ ((recoveredAssociations out1 (traversal twoRecords)
              : List (Nat × Nat × Nat × Option Nat)) : Multiset (Nat × Nat × Nat × Option Nat))
            = (recoveredAssociations out2 (traversal twoRecordsSwapped)
                : List (Nat × Nat × Nat × Option Nat)) :=
  ⟨List.Perm.swap _ _ [], rfl, rfl,
    GroupFeaturesByOU_order_independent_of_batches ⟨[], [(3, []), (4, [])]⟩ twoRecords
      twoRecordsSwapped (List.Perm.swap _ _ []) rfl
      (by
        intro x hx
        simp only [traversal, twoRecords, List.flatMap_cons, List.flatMap_nil, List.map_cons,
          List.map_nil, List.append_nil, List.singleton_append, List.mem_cons, List.mem_singleton,
          List.not_mem_nil, or_false] at hx
        rcases hx with rfl | rfl
        · exact ⟨[], rfl⟩
        · exact ⟨[], rfl⟩)⟩

end PilotUtil

end noisepage.selfdriving

namespace noisepage.catalog.postgres

namespace PgProcImpl

/-! ## Theorems: the `is_aggregate` flag of the bootstrapped procedures -/

/-- Whatever it returns, a call of `CreateProcedure` that does not fail an
assertion leaves the prepared row in a fresh slot of the table. -/
theorem CreateProcedure_table (env : CatalogEnv) (impl impl1 : PgProcImpl)
    (txn txn1 : TransactionContext) (oid : Nat) (procname : String) (language_oid procns : Nat)
    (args : List String) (arg_types all_arg_types arg_modes : List Nat) (rettype : Nat)
    (src : String) (is_aggregate result : Bool)
    (h : CreateProcedure env impl txn oid procname language_oid procns args arg_types
      all_arg_types arg_modes rettype src is_aggregate = Except.ok (impl1, txn1, result)) :
    impl1.procs_.tuples = impl.procs_.tuples
      ++ [⟨newRow env oid procname language_oid procns args arg_types all_arg_types arg_modes
            rettype src is_aggregate, false⟩] := by
  unfold CreateProcedure at h
  split at h
  · cases h
  · simp only at h
    split at h
    · simp only [Except.ok.injEq, Prod.mk.injEq] at h
      obtain ⟨rfl, _⟩ := h
      rfl
    · split at h
      · split at h
        · cases h
        · simp only [Except.ok.injEq, Prod.mk.injEq] at h
          obtain ⟨rfl, _⟩ := h
          rfl
      · simp only [Except.ok.injEq, Prod.mk.injEq] at h
        obtain ⟨rfl, _⟩ := h
        rfl

/-- The helper `create_fn` does not look at its parameter `is_aggregate`. -/
theorem create_fn_ignores_is_aggregate (env : CatalogEnv) (oids : BootstrapOids)
    (state : BootstrapState) (procname : String) (args : List String)
    (arg_types all_arg_types : List Nat) (rettype : Nat) (is_aggregate : Bool) :
    create_fn env oids state procname args arg_types all_arg_types rettype is_aggregate
      = create_fn env oids state procname args arg_types all_arg_types rettype true :=
  rfl

/-- A call of `create_fn` that returns has put one row into the table, whose
column `proisagg` is `true`, and has advanced the oid counter by one. -/
theorem create_fn_row (env : CatalogEnv) (oids : BootstrapOids) (state state1 : BootstrapState)
    (procname : String) (args : List String) (arg_types all_arg_types : List Nat)
    (rettype : Nat) (is_aggregate : Bool)
    (h : create_fn env oids state procname args arg_types all_arg_types rettype is_aggregate
      = Except.ok state1) :
    state1.impl.procs_.tuples = state.impl.procs_.tuples
      ++ [⟨newRow env state.next_oid_ procname oids.INTERNAL_LANGUAGE_OID
            oids.NAMESPACE_DEFAULT_NAMESPACE_OID args arg_types all_arg_types [] rettype ""
            true, false⟩]
    ∧ state1.next_oid_ = state.next_oid_ + 1 := by
  unfold create_fn at h
  split at h
  · cases h
  · rename_i impl txn result hcreate
    simp only [Except.ok.injEq] at h
    subst h
    exact ⟨CreateProcedure_table env state.impl impl state.txn txn _ _ _ _ _ _ _ _ _ _ _ _
      hcreate, rfl⟩

/-- After a sequence of `create_fn` calls that returns, the table has gained one
row per call, in order, with the name of the call and with `proisagg` set to
`true`, whatever `is_aggregate` the call passed. -/
theorem createFns_rows (env : CatalogEnv) (oids : BootstrapOids) (calls : List CreateFnCall) :
    ∀ (state state1 : BootstrapState), createFns env oids state calls = Except.ok state1 →
      ∃ added, state1.impl.procs_.tuples = state.impl.procs_.tuples ++ added
        ∧ added.map (fun tuple => (tuple.row.proname, tuple.row.proisagg, tuple.deleted))
            = calls.map (fun call => (call.procname, true, false)) := by
  induction calls with
  | nil =>
    intro state state1 h
    simp only [createFns, Except.ok.injEq] at h
    subst h
    exact ⟨[], (List.append_nil _).symm, rfl⟩
  | cons call rest ih =>
    intro state state1 h
    simp only [createFns] at h
    split at h
    · cases h
    · rename_i state2 hcall
      obtain ⟨htuples, _⟩ := create_fn_row env oids state state2 _ _ _ _ _ _ hcall
      obtain ⟨added, hadded, hmap⟩ := ih state2 state1 h
      refine ⟨⟨newRow env state.next_oid_ call.procname oids.INTERNAL_LANGUAGE_OID
        oids.NAMESPACE_DEFAULT_NAMESPACE_OID call.args call.arg_types call.all_arg_types []
        call.rettype "" true, false⟩ :: added, ?_, ?_⟩
      · rw [hadded, htuples, List.append_assoc, List.singleton_append]
      · rw [List.map_cons, List.map_cons, hmap]
        rfl

/-- C21: the `is_aggregate` flag stored for a function registered through
`create_fn` is `true` whatever argument was passed: a call with `false` is the
call with `true`.  `BootstrapProcs` passes `false` in exactly two calls, for
`date_part` and for `version`; the call for `date_part` on an empty catalog
stores a row with `proisagg` set to `true`; and the registrations of
`BootstrapProcs` run on an empty catalog return with 58 rows, among which the
rows of `date_part` and of `version` have `proisagg` set to `true`, while a
procedure registered by a direct call of `CreateProcedure` with `false` has it
`false`. -/
theorem BootstrapProcs_stores_every_create_fn_as_aggregate :
    (∀ (env : CatalogEnv) (oids : BootstrapOids) (state : BootstrapState) (procname : String)
        (args : List String) (arg_types all_arg_types : List Nat) (rettype : Nat),
        create_fn env oids state procname args arg_types all_arg_types rettype false
          = create_fn env oids state procname args arg_types all_arg_types rettype true)
    ∧ (createFnCalls sampleEnv sampleOids).filter (fun call => !call.is_aggregate)
        = [⟨"date_part", ["date, date_part_type"], [7, 3], [7, 3], 3, false⟩,
           ⟨"version", [], [], [], 8, false⟩]
    ∧ create_fn sampleEnv sampleOids freshState "date_part" ["date, date_part_type"] [7, 3]
          [7, 3] 3 false
        = Except.ok
            ⟨⟨1, ⟨[⟨newRow sampleEnv 1001 "date_part" 13 15 ["date, date_part_type"] [7, 3]
                      [7, 3] [] 3 "" true, false⟩], []⟩,
                [(1001, 0)], [((15, "date_part"), 0)]⟩,
              ⟨[StagedRecord.redo 1 81 0
                  (Delta.allColumns (newRow sampleEnv 1001 "date_part" 13 15
                    ["date, date_part_type"] [7, 3] [7, 3] [] 3 "" true))], []⟩,
              1002⟩
    ∧ Except.map
          (fun state =>
            ((rowsNamed state.impl "date_part").map (fun row => (row.prooid, row.proisagg)),
             (rowsNamed state.impl "version").map (fun row => (row.prooid, row.proisagg)),
             (rowsNamed state.impl "nprunnersdummyint").map
               (fun row => (row.prooid, row.proisagg)),
             state.impl.procs_.tuples.length, state.next_oid_))
          (BootstrapProcs sampleEnv sampleOids 0 freshState)
        = Except.ok ([(1053, true)], [(1054, true)], [(1057, false)], 58, 1059) := by
  refine ⟨fun _ _ _ _ _ _ _ _ => rfl, by decide, rfl, ?_⟩
  rfl

end PgProcImpl

end noisepage.catalog.postgres
